import Mathlib

/-!
# Mercosul plate extraction (`extrairPlaca`, `src/index.js`)

A shallow embedding of the function `extrairPlaca` of `src/index.js` and the
properties its specification states about it.

A JavaScript string is modelled as a `List Char` (a sequence of Unicode code
points).  The source only measures and slices strings that were already
reduced to `[A-Z0-9]`, so code points and UTF-16 code units agree wherever a
length or an index is taken; an unpaired surrogate, which a JavaScript string
may also hold, is outside every character class below and is treated by the
source like any other symbol.  The absent value `null` is `none`, and the
calls to `console` are left out.
-/

namespace ServidorOCR

/-- A JavaScript string, as the sequence of its characters. -/
abbrev Texto := List Char

/-! ## Character classes of the regular expressions -/

/-- The class `\s` of a JavaScript regular expression: the ECMAScript
`WhiteSpace` and `LineTerminator` code points. -/
def isWhiteSpace (c : Char) : Bool :=
  let n := c.toNat
  decide (n = 0x09 ∨ n = 0x0A ∨ n = 0x0B ∨ n = 0x0C ∨ n = 0x0D ∨ n = 0x20 ∨ n = 0xA0 ∨
    n = 0x1680 ∨ (0x2000 ≤ n ∧ n ≤ 0x200A) ∨ n = 0x2028 ∨ n = 0x2029 ∨ n = 0x202F ∨
    n = 0x205F ∨ n = 0x3000 ∨ n = 0xFEFF)

/-- The class `[A-Z]`. -/
def isLetra (c : Char) : Bool :=
  decide (65 ≤ c.toNat ∧ c.toNat ≤ 90)

/-- The class `[0-9]`. -/
def isNumero (c : Char) : Bool :=
  decide (48 ≤ c.toNat ∧ c.toNat ≤ 57)

/-- The class `[A-Z0-9]`, whose complement line 44 removes. -/
def isAlfanum (c : Char) : Bool :=
  isLetra c || isNumero c

/-! ## Line 37: `textoCompleto.replace(/\s+/g, ' ').toUpperCase().split(' ')` -/

/-- The scan of `replace(/\s+/g, ' ')`: `emBranco` tells whether the previous
character belonged to the whitespace run being replaced, whose single space
was already emitted. -/
def replaceEspacosAux (emBranco : Bool) : Texto → Texto
  | [] => []
  | c :: cs =>
    if isWhiteSpace c then
      if emBranco then replaceEspacosAux true cs else ' ' :: replaceEspacosAux true cs
    else c :: replaceEspacosAux false cs

/-- The call `replace(/\s+/g, ' ')`: every maximal run of whitespace becomes
one space. -/
def replaceEspacos (t : Texto) : Texto :=
  replaceEspacosAux false t

/-- The code points whose upper-case form under `toUpperCase` has several
characters (the unconditional entries of SpecialCasing in the Unicode
Character Database, version 14.0), each with that form. -/
def upperEspeciais : List (Nat × List Nat) :=
  [
    (0x00DF, [0x0053, 0x0053]), (0x0149, [0x02BC, 0x004E]), (0x01F0, [0x004A, 0x030C]),
    (0x0390, [0x0399, 0x0308, 0x0301]), (0x03B0, [0x03A5, 0x0308, 0x0301]),
    (0x0587, [0x0535, 0x0552]), (0x1E96, [0x0048, 0x0331]), (0x1E97, [0x0054, 0x0308]),
    (0x1E98, [0x0057, 0x030A]), (0x1E99, [0x0059, 0x030A]), (0x1E9A, [0x0041, 0x02BE]),
    (0x1F50, [0x03A5, 0x0313]), (0x1F52, [0x03A5, 0x0313, 0x0300]),
    (0x1F54, [0x03A5, 0x0313, 0x0301]), (0x1F56, [0x03A5, 0x0313, 0x0342]),
    (0x1F80, [0x1F08, 0x0399]), (0x1F81, [0x1F09, 0x0399]), (0x1F82, [0x1F0A, 0x0399]),
    (0x1F83, [0x1F0B, 0x0399]), (0x1F84, [0x1F0C, 0x0399]), (0x1F85, [0x1F0D, 0x0399]),
    (0x1F86, [0x1F0E, 0x0399]), (0x1F87, [0x1F0F, 0x0399]), (0x1F88, [0x1F08, 0x0399]),
    (0x1F89, [0x1F09, 0x0399]), (0x1F8A, [0x1F0A, 0x0399]), (0x1F8B, [0x1F0B, 0x0399]),
    (0x1F8C, [0x1F0C, 0x0399]), (0x1F8D, [0x1F0D, 0x0399]), (0x1F8E, [0x1F0E, 0x0399]),
    (0x1F8F, [0x1F0F, 0x0399]), (0x1F90, [0x1F28, 0x0399]), (0x1F91, [0x1F29, 0x0399]),
    (0x1F92, [0x1F2A, 0x0399]), (0x1F93, [0x1F2B, 0x0399]), (0x1F94, [0x1F2C, 0x0399]),
    (0x1F95, [0x1F2D, 0x0399]), (0x1F96, [0x1F2E, 0x0399]), (0x1F97, [0x1F2F, 0x0399]),
    (0x1F98, [0x1F28, 0x0399]), (0x1F99, [0x1F29, 0x0399]), (0x1F9A, [0x1F2A, 0x0399]),
    (0x1F9B, [0x1F2B, 0x0399]), (0x1F9C, [0x1F2C, 0x0399]), (0x1F9D, [0x1F2D, 0x0399]),
    (0x1F9E, [0x1F2E, 0x0399]), (0x1F9F, [0x1F2F, 0x0399]), (0x1FA0, [0x1F68, 0x0399]),
    (0x1FA1, [0x1F69, 0x0399]), (0x1FA2, [0x1F6A, 0x0399]), (0x1FA3, [0x1F6B, 0x0399]),
    (0x1FA4, [0x1F6C, 0x0399]), (0x1FA5, [0x1F6D, 0x0399]), (0x1FA6, [0x1F6E, 0x0399]),
    (0x1FA7, [0x1F6F, 0x0399]), (0x1FA8, [0x1F68, 0x0399]), (0x1FA9, [0x1F69, 0x0399]),
    (0x1FAA, [0x1F6A, 0x0399]), (0x1FAB, [0x1F6B, 0x0399]), (0x1FAC, [0x1F6C, 0x0399]),
    (0x1FAD, [0x1F6D, 0x0399]), (0x1FAE, [0x1F6E, 0x0399]), (0x1FAF, [0x1F6F, 0x0399]),
    (0x1FB2, [0x1FBA, 0x0399]), (0x1FB3, [0x0391, 0x0399]), (0x1FB4, [0x0386, 0x0399]),
    (0x1FB6, [0x0391, 0x0342]), (0x1FB7, [0x0391, 0x0342, 0x0399]), (0x1FBC, [0x0391, 0x0399]),
    (0x1FC2, [0x1FCA, 0x0399]), (0x1FC3, [0x0397, 0x0399]), (0x1FC4, [0x0389, 0x0399]),
    (0x1FC6, [0x0397, 0x0342]), (0x1FC7, [0x0397, 0x0342, 0x0399]), (0x1FCC, [0x0397, 0x0399]),
    (0x1FD2, [0x0399, 0x0308, 0x0300]), (0x1FD3, [0x0399, 0x0308, 0x0301]),
    (0x1FD6, [0x0399, 0x0342]), (0x1FD7, [0x0399, 0x0308, 0x0342]),
    (0x1FE2, [0x03A5, 0x0308, 0x0300]), (0x1FE3, [0x03A5, 0x0308, 0x0301]),
    (0x1FE4, [0x03A1, 0x0313]), (0x1FE6, [0x03A5, 0x0342]), (0x1FE7, [0x03A5, 0x0308, 0x0342]),
    (0x1FF2, [0x1FFA, 0x0399]), (0x1FF3, [0x03A9, 0x0399]), (0x1FF4, [0x038F, 0x0399]),
    (0x1FF6, [0x03A9, 0x0342]), (0x1FF7, [0x03A9, 0x0342, 0x0399]), (0x1FFC, [0x03A9, 0x0399]),
    (0xFB00, [0x0046, 0x0046]), (0xFB01, [0x0046, 0x0049]), (0xFB02, [0x0046, 0x004C]),
    (0xFB03, [0x0046, 0x0046, 0x0049]), (0xFB04, [0x0046, 0x0046, 0x004C]),
    (0xFB05, [0x0053, 0x0054]), (0xFB06, [0x0053, 0x0054]), (0xFB13, [0x0544, 0x0546]),
    (0xFB14, [0x0544, 0x0535]), (0xFB15, [0x0544, 0x053B]), (0xFB16, [0x054E, 0x0546]),
    (0xFB17, [0x0544, 0x053D])
  ]

/-- The code points above ASCII whose upper-case form is one other character
(the simple upper-case mappings of UnicodeData, version 14.0), as entries `(lo, hi, passo, alvo)`: the code points
`lo`, `lo + passo`, ..., up to `hi` map onto `alvo`, `alvo + passo`, ... -/
def upperIntervalos : List (Nat × Nat × Nat × Nat) :=
  [
    (0x00B5, 0x00B5, 1, 0x039C), (0x00E0, 0x00F6, 1, 0x00C0), (0x00F8, 0x00FE, 1, 0x00D8),
    (0x00FF, 0x00FF, 1, 0x0178), (0x0101, 0x012F, 2, 0x0100), (0x0131, 0x0131, 1, 0x0049),
    (0x0133, 0x0137, 2, 0x0132), (0x013A, 0x0148, 2, 0x0139), (0x014B, 0x0177, 2, 0x014A),
    (0x017A, 0x017E, 2, 0x0179), (0x017F, 0x017F, 1, 0x0053), (0x0180, 0x0180, 1, 0x0243),
    (0x0183, 0x0185, 2, 0x0182), (0x0188, 0x0188, 1, 0x0187), (0x018C, 0x018C, 1, 0x018B),
    (0x0192, 0x0192, 1, 0x0191), (0x0195, 0x0195, 1, 0x01F6), (0x0199, 0x0199, 1, 0x0198),
    (0x019A, 0x019A, 1, 0x023D), (0x019E, 0x019E, 1, 0x0220), (0x01A1, 0x01A5, 2, 0x01A0),
    (0x01A8, 0x01A8, 1, 0x01A7), (0x01AD, 0x01AD, 1, 0x01AC), (0x01B0, 0x01B0, 1, 0x01AF),
    (0x01B4, 0x01B6, 2, 0x01B3), (0x01B9, 0x01B9, 1, 0x01B8), (0x01BD, 0x01BD, 1, 0x01BC),
    (0x01BF, 0x01BF, 1, 0x01F7), (0x01C5, 0x01C5, 1, 0x01C4), (0x01C6, 0x01C6, 1, 0x01C4),
    (0x01C8, 0x01C8, 1, 0x01C7), (0x01C9, 0x01C9, 1, 0x01C7), (0x01CB, 0x01CB, 1, 0x01CA),
    (0x01CC, 0x01CC, 1, 0x01CA), (0x01CE, 0x01DC, 2, 0x01CD), (0x01DD, 0x01DD, 1, 0x018E),
    (0x01DF, 0x01EF, 2, 0x01DE), (0x01F2, 0x01F2, 1, 0x01F1), (0x01F3, 0x01F3, 1, 0x01F1),
    (0x01F5, 0x01F5, 1, 0x01F4), (0x01F9, 0x021F, 2, 0x01F8), (0x0223, 0x0233, 2, 0x0222),
    (0x023C, 0x023C, 1, 0x023B), (0x023F, 0x0240, 1, 0x2C7E), (0x0242, 0x0242, 1, 0x0241),
    (0x0247, 0x024F, 2, 0x0246), (0x0250, 0x0250, 1, 0x2C6F), (0x0251, 0x0251, 1, 0x2C6D),
    (0x0252, 0x0252, 1, 0x2C70), (0x0253, 0x0253, 1, 0x0181), (0x0254, 0x0254, 1, 0x0186),
    (0x0256, 0x0257, 1, 0x0189), (0x0259, 0x0259, 1, 0x018F), (0x025B, 0x025B, 1, 0x0190),
    (0x025C, 0x025C, 1, 0xA7AB), (0x0260, 0x0260, 1, 0x0193), (0x0261, 0x0261, 1, 0xA7AC),
    (0x0263, 0x0263, 1, 0x0194), (0x0265, 0x0265, 1, 0xA78D), (0x0266, 0x0266, 1, 0xA7AA),
    (0x0268, 0x0268, 1, 0x0197), (0x0269, 0x0269, 1, 0x0196), (0x026A, 0x026A, 1, 0xA7AE),
    (0x026B, 0x026B, 1, 0x2C62), (0x026C, 0x026C, 1, 0xA7AD), (0x026F, 0x026F, 1, 0x019C),
    (0x0271, 0x0271, 1, 0x2C6E), (0x0272, 0x0272, 1, 0x019D), (0x0275, 0x0275, 1, 0x019F),
    (0x027D, 0x027D, 1, 0x2C64), (0x0280, 0x0280, 1, 0x01A6), (0x0282, 0x0282, 1, 0xA7C5),
    (0x0283, 0x0283, 1, 0x01A9), (0x0287, 0x0287, 1, 0xA7B1), (0x0288, 0x0288, 1, 0x01AE),
    (0x0289, 0x0289, 1, 0x0244), (0x028A, 0x028B, 1, 0x01B1), (0x028C, 0x028C, 1, 0x0245),
    (0x0292, 0x0292, 1, 0x01B7), (0x029D, 0x029D, 1, 0xA7B2), (0x029E, 0x029E, 1, 0xA7B0),
    (0x0345, 0x0345, 1, 0x0399), (0x0371, 0x0373, 2, 0x0370), (0x0377, 0x0377, 1, 0x0376),
    (0x037B, 0x037D, 1, 0x03FD), (0x03AC, 0x03AC, 1, 0x0386), (0x03AD, 0x03AF, 1, 0x0388),
    (0x03B1, 0x03C1, 1, 0x0391), (0x03C2, 0x03C2, 1, 0x03A3), (0x03C3, 0x03CB, 1, 0x03A3),
    (0x03CC, 0x03CC, 1, 0x038C), (0x03CD, 0x03CE, 1, 0x038E), (0x03D0, 0x03D0, 1, 0x0392),
    (0x03D1, 0x03D1, 1, 0x0398), (0x03D5, 0x03D5, 1, 0x03A6), (0x03D6, 0x03D6, 1, 0x03A0),
    (0x03D7, 0x03D7, 1, 0x03CF), (0x03D9, 0x03EF, 2, 0x03D8), (0x03F0, 0x03F0, 1, 0x039A),
    (0x03F1, 0x03F1, 1, 0x03A1), (0x03F2, 0x03F2, 1, 0x03F9), (0x03F3, 0x03F3, 1, 0x037F),
    (0x03F5, 0x03F5, 1, 0x0395), (0x03F8, 0x03F8, 1, 0x03F7), (0x03FB, 0x03FB, 1, 0x03FA),
    (0x0430, 0x044F, 1, 0x0410), (0x0450, 0x045F, 1, 0x0400), (0x0461, 0x0481, 2, 0x0460),
    (0x048B, 0x04BF, 2, 0x048A), (0x04C2, 0x04CE, 2, 0x04C1), (0x04CF, 0x04CF, 1, 0x04C0),
    (0x04D1, 0x052F, 2, 0x04D0), (0x0561, 0x0586, 1, 0x0531), (0x10D0, 0x10FA, 1, 0x1C90),
    (0x10FD, 0x10FF, 1, 0x1CBD), (0x13F8, 0x13FD, 1, 0x13F0), (0x1C80, 0x1C80, 1, 0x0412),
    (0x1C81, 0x1C81, 1, 0x0414), (0x1C82, 0x1C82, 1, 0x041E), (0x1C83, 0x1C84, 1, 0x0421),
    (0x1C85, 0x1C85, 1, 0x0422), (0x1C86, 0x1C86, 1, 0x042A), (0x1C87, 0x1C87, 1, 0x0462),
    (0x1C88, 0x1C88, 1, 0xA64A), (0x1D79, 0x1D79, 1, 0xA77D), (0x1D7D, 0x1D7D, 1, 0x2C63),
    (0x1D8E, 0x1D8E, 1, 0xA7C6), (0x1E01, 0x1E95, 2, 0x1E00), (0x1E9B, 0x1E9B, 1, 0x1E60),
    (0x1EA1, 0x1EFF, 2, 0x1EA0), (0x1F00, 0x1F07, 1, 0x1F08), (0x1F10, 0x1F15, 1, 0x1F18),
    (0x1F20, 0x1F27, 1, 0x1F28), (0x1F30, 0x1F37, 1, 0x1F38), (0x1F40, 0x1F45, 1, 0x1F48),
    (0x1F51, 0x1F57, 2, 0x1F59), (0x1F60, 0x1F67, 1, 0x1F68), (0x1F70, 0x1F71, 1, 0x1FBA),
    (0x1F72, 0x1F75, 1, 0x1FC8), (0x1F76, 0x1F77, 1, 0x1FDA), (0x1F78, 0x1F79, 1, 0x1FF8),
    (0x1F7A, 0x1F7B, 1, 0x1FEA), (0x1F7C, 0x1F7D, 1, 0x1FFA), (0x1FB0, 0x1FB1, 1, 0x1FB8),
    (0x1FBE, 0x1FBE, 1, 0x0399), (0x1FD0, 0x1FD1, 1, 0x1FD8), (0x1FE0, 0x1FE1, 1, 0x1FE8),
    (0x1FE5, 0x1FE5, 1, 0x1FEC), (0x214E, 0x214E, 1, 0x2132), (0x2170, 0x217F, 1, 0x2160),
    (0x2184, 0x2184, 1, 0x2183), (0x24D0, 0x24E9, 1, 0x24B6), (0x2C30, 0x2C5F, 1, 0x2C00),
    (0x2C61, 0x2C61, 1, 0x2C60), (0x2C65, 0x2C65, 1, 0x023A), (0x2C66, 0x2C66, 1, 0x023E),
    (0x2C68, 0x2C6C, 2, 0x2C67), (0x2C73, 0x2C73, 1, 0x2C72), (0x2C76, 0x2C76, 1, 0x2C75),
    (0x2C81, 0x2CE3, 2, 0x2C80), (0x2CEC, 0x2CEE, 2, 0x2CEB), (0x2CF3, 0x2CF3, 1, 0x2CF2),
    (0x2D00, 0x2D25, 1, 0x10A0), (0x2D27, 0x2D27, 1, 0x10C7), (0x2D2D, 0x2D2D, 1, 0x10CD),
    (0xA641, 0xA66D, 2, 0xA640), (0xA681, 0xA69B, 2, 0xA680), (0xA723, 0xA72F, 2, 0xA722),
    (0xA733, 0xA76F, 2, 0xA732), (0xA77A, 0xA77C, 2, 0xA779), (0xA77F, 0xA787, 2, 0xA77E),
    (0xA78C, 0xA78C, 1, 0xA78B), (0xA791, 0xA793, 2, 0xA790), (0xA794, 0xA794, 1, 0xA7C4),
    (0xA797, 0xA7A9, 2, 0xA796), (0xA7B5, 0xA7C3, 2, 0xA7B4), (0xA7C8, 0xA7CA, 2, 0xA7C7),
    (0xA7D1, 0xA7D1, 1, 0xA7D0), (0xA7D7, 0xA7D9, 2, 0xA7D6), (0xA7F6, 0xA7F6, 1, 0xA7F5),
    (0xAB53, 0xAB53, 1, 0xA7B3), (0xAB70, 0xABBF, 1, 0x13A0), (0xFF41, 0xFF5A, 1, 0xFF21),
    (0x10428, 0x1044F, 1, 0x10400), (0x104D8, 0x104FB, 1, 0x104B0),
    (0x10597, 0x105BB, 2, 0x10570), (0x10598, 0x105A1, 1, 0x10571),
    (0x105A4, 0x105B1, 1, 0x1057D), (0x105B4, 0x105B9, 1, 0x1058D),
    (0x105BC, 0x105BC, 1, 0x10595), (0x10CC0, 0x10CF2, 1, 0x10C80),
    (0x118C0, 0x118DF, 1, 0x118A0), (0x16E60, 0x16E7F, 1, 0x16E40),
    (0x1E922, 0x1E943, 1, 0x1E900)
  ]

/-- Whether the code point `n` belongs to the entry `e` of `upperIntervalos`. -/
def noIntervalo (n : Nat) (e : Nat × Nat × Nat × Nat) : Bool :=
  decide (e.1 ≤ n ∧ n ≤ e.2.1 ∧ (n - e.1) % e.2.2.1 = 0)

/-- The upper-case form of the code point `n` under `toUpperCase`, as code
points: in ASCII only `a-z` change; above ASCII the form is looked up in
`upperEspeciais`, then in `upperIntervalos`, and a code point in neither is
its own upper-case form.  The mapping has no context rule and no locale. -/
def upperCode (n : Nat) : List Nat :=
  if n < 128 then
    if 97 ≤ n ∧ n ≤ 122 then [n - 32] else [n]
  else
    match upperEspeciais.find? (fun p => p.1 == n) with
    | some p => p.2
    | none =>
      match upperIntervalos.find? (noIntervalo n) with
      | some e => [e.2.2.2 + (n - e.1)]
      | none => [n]

/-- The upper-case form of one character under `toUpperCase`, which maps code
point by code point and may lengthen the string (`ß` gives `SS`). -/
def upperChar (c : Char) : Texto :=
  (upperCode c.toNat).map Char.ofNat

/-- The call `toUpperCase()`. -/
def toUpperCase : Texto → Texto
  | [] => []
  | c :: cs => upperChar c ++ toUpperCase cs

/-- The call `split(' ')`: the pieces between single spaces, empty pieces
included; the empty string gives one empty piece. -/
def split : Texto → List Texto
  | [] => [[]]
  | c :: cs =>
    if c = ' ' then [] :: split cs
    else
      match split cs with
      | [] => [[c]]
      | w :: ws => (c :: w) :: ws

/-- Line 37: the token list `palavras`. -/
def palavras (textoCompleto : Texto) : List Texto :=
  split (toUpperCase (replaceEspacos textoCompleto))

/-! ## Lines 38-41: the pattern and the two correction tables -/

/-- Line 38: `/^[A-Z]{3}[0-9]{1}[A-Z]{1}[0-9]{2}$/.test(s)`.  Without the `m`
flag the anchors are the two ends of the string, so exactly seven characters
are matched. -/
def placaRegexMercosul (s : Texto) : Bool :=
  match s with
  | [c0, c1, c2, c3, c4, c5, c6] =>
    isLetra c0 && isLetra c1 && isLetra c2 && isNumero c3 && isLetra c4 && isNumero c5 &&
      isNumero c6
  | _ => false

/-- Line 40: the table `correcaoParaLetra`; a key that is absent gives
`undefined`, here `none`. -/
def correcaoParaLetra (c : Char) : Option Char :=
  if c = '0' then some 'O'
  else if c = '1' then some 'I'
  else if c = '8' then some 'B'
  else if c = '5' then some 'S'
  else if c = '2' then some 'Z'
  else none

/-- Line 41: the table `correcaoParaNumero`. -/
def correcaoParaNumero (c : Char) : Option Char :=
  if c = 'O' then some '0'
  else if c = 'I' then some '1'
  else if c = 'B' then some '8'
  else if c = 'S' then some '5'
  else if c = 'Z' then some '2'
  else none

/-! ## Lines 44-54: cleaning a token and deriving the candidate -/

/-- Line 44: `palavraOriginal.replace(/[^A-Z0-9]/g, '')`. -/
def limpar (palavraOriginal : Texto) : Texto :=
  palavraOriginal.filter isAlfanum

/-- The call `s.slice(-7)`: from index `max (length - 7) 0` to the end. -/
def sliceUltimos7 (s : Texto) : Texto :=
  s.drop (s.length - 7)

/-- Lines 46-54: the value of `candidato` once the two branches have run. -/
def candidato (palavraLimpa : Texto) : Option Texto :=
  if palavraLimpa.length = 7 then some palavraLimpa
  else if palavraLimpa.length > 7 then some (sliceUltimos7 palavraLimpa)
  else none

/-- Line 57: the test `if (candidato)`; `null` and the empty string are the
falsy values a string-or-null can take. -/
def truthy : Option Texto → Bool
  | none => false
  | some [] => false
  | some (_ :: _) => true

/-! ## Lines 67-91: the positional correction pass -/

/-- Lines 72-74 and 81-83: the step for a position that must hold a letter.
The read `corrigidaChars[i]` is `none` when `i` is out of range (`undefined`
in the source, on which the test `/[0-9]/` fails). -/
def corrigirParaLetra (corrigidaChars : List Char) (i : Nat) : List Char :=
  match corrigidaChars[i]? with
  | some ch =>
    if isNumero ch then
      match correcaoParaLetra ch with
      | some l => corrigidaChars.set i l
      | none => corrigidaChars
    else corrigidaChars
  | none => corrigidaChars

/-- Lines 77-79 and 86-88: the step for a position that must hold a digit. -/
def corrigirParaNumero (corrigidaChars : List Char) (i : Nat) : List Char :=
  match corrigidaChars[i]? with
  | some ch =>
    if isLetra ch then
      match correcaoParaNumero ch with
      | some d => corrigidaChars.set i d
      | none => corrigidaChars
    else corrigidaChars
  | none => corrigidaChars

/-- Lines 67-91: `placaCorrigida` computed from `candidato`. -/
def corrigir (cand : Texto) : Texto :=
  let c1 := [0, 1, 2].foldl corrigirParaLetra cand
  let c2 := corrigirParaNumero c1 3
  let c3 := corrigirParaLetra c2 4
  [5, 6].foldl corrigirParaNumero c3

/-! ## Lines 43-105: the loop over the tokens -/

/-- Lines 43-105: the `for ... of` loop with its two early returns, and the
final `return null`. -/
def extrairLoop : List Texto → Option Texto
  | [] => none
  | palavraOriginal :: resto =>
    let cand := candidato (limpar palavraOriginal)
    if truthy cand then
      match cand with
      | some c =>
        if placaRegexMercosul c then some c
        else
          let placaCorrigida := corrigir c
          if placaRegexMercosul placaCorrigida then some placaCorrigida
          else extrairLoop resto
      | none => extrairLoop resto
    else extrairLoop resto

/-- Lines 36-106: `extrairPlaca(textoCompleto)`. -/
def extrairPlaca (textoCompleto : Texto) : Option Texto :=
  extrairLoop (palavras textoCompleto)

/-! ## Definitions used to state the properties -/

/-- The outcome of the loop body (lines 44-100) at one token: the plate
returned there, or `none` when the loop goes on to the next token. -/
def resultadoPalavra (palavraOriginal : Texto) : Option Texto :=
  match candidato (limpar palavraOriginal) with
  | none => none
  | some c =>
    if placaRegexMercosul c then some c
    else if placaRegexMercosul (corrigir c) then some (corrigir c)
    else none

/-- The character that lines 72-74 leave at a position that must hold a
letter, as a function of the character read there. -/
def letraCorrigida (ch : Char) : Char :=
  if isNumero ch then (correcaoParaLetra ch).getD ch else ch

/-- The character that lines 77-79 leave at a position that must hold a
digit, as a function of the character read there. -/
def numeroCorrigido (ch : Char) : Char :=
  if isLetra ch then (correcaoParaNumero ch).getD ch else ch

/-- The positional rule in the words of the specification: at positions
0, 1, 2 and 4 the digits `0 1 8 5 2` become `O I B S Z`, at positions 3, 5
and 6 the letters `O I B S Z` become `0 1 8 5 2`, and every other character
stays. -/
def corrigidoEm (i : Nat) (ch : Char) : Char :=
  if i = 0 ∨ i = 1 ∨ i = 2 ∨ i = 4 then
    if ch = '0' then 'O' else if ch = '1' then 'I' else if ch = '8' then 'B'
    else if ch = '5' then 'S' else if ch = '2' then 'Z' else ch
  else if i = 3 ∨ i = 5 ∨ i = 6 then
    if ch = 'O' then '0' else if ch = 'I' then '1' else if ch = 'B' then '8'
    else if ch = 'S' then '5' else if ch = 'Z' then '2' else ch
  else ch

/-- One step of the correction pass with the read `corrigidaChars[i]`
checked: `none` when the index is out of range. -/
def passoChecado (passo : List Char → Nat → List Char) (cs : List Char) (i : Nat) :
    Option (List Char) :=
  if i < cs.length then some (passo cs i) else none

/-- The correction pass of lines 67-91 with every read checked: `none` as
soon as one read is out of range. -/
def corrigirChecado (cand : Texto) : Option Texto := do
  let c1 ← [0, 1, 2].foldlM (passoChecado corrigirParaLetra) cand
  let c2 ← passoChecado corrigirParaNumero c1 3
  let c3 ← passoChecado corrigirParaLetra c2 4
  [5, 6].foldlM (passoChecado corrigirParaNumero) c3

/-- The number of characters of a token that are left by line 44. -/
def contaAlfanum (palavra : Texto) : Nat :=
  palavra.countP isAlfanum

/-- Whether the text holds seven consecutive alphanumeric characters
(`[A-Za-z0-9]`), the condition in the words of the specification. -/
def temSequencia7 : Texto → Bool
  | [] => false
  | c :: cs =>
    ((c :: cs).take 7).length == 7 && ((c :: cs).take 7).all Char.isAlphanum || temSequencia7 cs

/-- The variant of the loop of lines 43-105 that omits the direct attempt of
lines 61-64 and only tests the corrected candidate. -/
def extrairLoopSoCorrigida : List Texto → Option Texto
  | [] => none
  | palavraOriginal :: resto =>
    let cand := candidato (limpar palavraOriginal)
    if truthy cand then
      match cand with
      | some c =>
        let placaCorrigida := corrigir c
        if placaRegexMercosul placaCorrigida then some placaCorrigida
        else extrairLoopSoCorrigida resto
      | none => extrairLoopSoCorrigida resto
    else extrairLoopSoCorrigida resto

/-- The variant of `extrairPlaca` without the direct attempt. -/
def extrairPlacaSoCorrigida (textoCompleto : Texto) : Option Texto :=
  extrairLoopSoCorrigida (palavras textoCompleto)

/-- An ASCII punctuation character: printable, not a space, not a letter and
not a digit. -/
def isPontuacao (c : Char) : Bool :=
  let n := c.toNat
  decide ((33 ≤ n ∧ n ≤ 47) ∨ (58 ≤ n ∧ n ≤ 64) ∨ (91 ≤ n ∧ n ≤ 96) ∨ (123 ≤ n ∧ n ≤ 126))

/-- The flag of the scan `replaceEspacosAux` once it has read a prefix: whether
the last character read was whitespace. -/
def emBrancoApos (emBranco : Bool) : Texto → Bool
  | [] => emBranco
  | c :: cs => emBrancoApos (isWhiteSpace c) cs

/-- The class `\s` on code points: `isWhiteSpace c` is `codigoBranco c.toNat`. -/
def codigoBranco (n : Nat) : Bool :=
  decide (n = 0x09 ∨ n = 0x0A ∨ n = 0x0B ∨ n = 0x0C ∨ n = 0x0D ∨ n = 0x20 ∨ n = 0xA0 ∨
    n = 0x1680 ∨ (0x2000 ≤ n ∧ n ≤ 0x200A) ∨ n = 0x2028 ∨ n = 0x2029 ∨ n = 0x202F ∨
    n = 0x205F ∨ n = 0x3000 ∨ n = 0xFEFF)

/-- A code point that is a Unicode scalar value, is not whitespace and is its
own upper-case form. -/
def saidaOk (k : Nat) : Bool :=
  decide (k < 0xD800 ∨ (0xDFFF < k ∧ k < 0x110000)) && !codigoBranco k && upperCode k == [k]

/-- The range `wlo..whi` does not meet the range `a..b`. -/
def foraDe (wlo whi a b : Nat) : Bool :=
  decide (whi < a ∨ b < wlo)

/-- No whitespace code point lies in the range `a..b`. -/
def semBranco (a b : Nat) : Bool :=
  foraDe 0x09 0x0D a b && foraDe 0x20 0x20 a b && foraDe 0xA0 0xA0 a b &&
    foraDe 0x1680 0x1680 a b && foraDe 0x2000 0x200A a b && foraDe 0x2028 0x2029 a b &&
    foraDe 0x202F 0x202F a b && foraDe 0x205F 0x205F a b && foraDe 0x3000 0x3000 a b &&
    foraDe 0xFEFF 0xFEFF a b

/-- The checks on one entry of `upperIntervalos`: a positive step, an ordered
range above ASCII, images that are scalar values outside `a-z`, and no
whitespace among the code points or their images. -/
def entradaOk (e : Nat × Nat × Nat × Nat) : Bool :=
  decide (0 < e.2.2.1 ∧ e.1 ≤ e.2.1 ∧ 128 ≤ e.1 ∧
    (e.2.2.2 + (e.2.1 - e.1) < 97 ∨ 122 < e.2.2.2) ∧
    (e.2.2.2 + (e.2.1 - e.1) < 0xD800 ∨
      (0xDFFF < e.2.2.2 ∧ e.2.2.2 + (e.2.1 - e.1) < 0x110000))) &&
    semBranco e.2.2.2 (e.2.2.2 + (e.2.1 - e.1)) && semBranco e.1 e.2.1

/-- No image of the entry `e` is a code point of the entry `e2`: the ranges are
apart, or both advance by 2 on opposite parities. -/
def livre (e e2 : Nat × Nat × Nat × Nat) : Bool :=
  decide (e.2.2.2 + (e.2.1 - e.1) < e2.1 ∨ e2.2.1 < e.2.2.2 ∨
    ((e.2.2.1 = 2 ∨ e.1 = e.2.1) ∧ e2.2.2.1 = 2 ∧ (e.2.2.2 + e2.1) % 2 = 1))

/-- The code point `k` is no image of the entry `e`. -/
def livreChave (e : Nat × Nat × Nat × Nat) (k : Nat) : Bool :=
  decide (k < e.2.2.2 ∨ e.2.2.2 + (e.2.1 - e.1) < k ∨
    ((e.2.2.1 = 2 ∨ e.1 = e.2.1) ∧ (e.2.2.2 + k) % 2 = 1))

/-- The upper-case form of an ASCII character in the words of the
specification: `a-z` become `A-Z`, every other character stays. -/
def asciiMaiuscula (ch : Char) : Char :=
  if 97 ≤ ch.toNat ∧ ch.toNat ≤ 122 then Char.ofNat (ch.toNat - 32) else ch

/-- The text `w` with its ASCII punctuation characters taken out; `w` is a
plate `P` with punctuation inserted exactly when this is `P`. -/
def semPontuacao (w : Texto) : Texto :=
  w.filter (fun ch => !isPontuacao ch)

/-- The part of `extrairPlaca` that follows `replace(/\s+/g, ' ')`: upper-casing,
splitting and the loop. -/
def extrairNormalizado (x : Texto) : Option Texto :=
  extrairLoop (split (toUpperCase x))

/-! ## Character facts -/

theorem isAlfanum_not_ws {c : Char} (h : isAlfanum c = true) : isWhiteSpace c = false := by
  simp only [isAlfanum, isLetra, isNumero, Bool.or_eq_true, decide_eq_true_eq] at h
  simp only [isWhiteSpace, decide_eq_false_iff_not]
  omega

theorem isAlfanum_ne_space {c : Char} (h : isAlfanum c = true) : c ≠ ' ' := by
  rintro rfl
  revert h
  decide

theorem upperChar_of_alfanum {c : Char} (h : isAlfanum c = true) : upperChar c = [c] := by
  simp only [isAlfanum, isLetra, isNumero, Bool.or_eq_true, decide_eq_true_eq] at h
  unfold upperChar upperCode
  rw [if_pos (by omega), if_neg (by omega)]
  simp only [List.map_cons, List.map_nil, Char.ofNat_toNat]

theorem letra_not_numero {c : Char} (h : isLetra c = true) : isNumero c = false := by
  simp only [isLetra, isNumero, decide_eq_true_eq, decide_eq_false_iff_not] at *
  omega

theorem numero_not_letra {c : Char} (h : isNumero c = true) : isLetra c = false := by
  simp only [isLetra, isNumero, decide_eq_true_eq, decide_eq_false_iff_not] at *
  omega

/-! ## Line 37 on a string of `[A-Z0-9]` -/

theorem replaceEspacosAux_of_alfanum (b : Bool) (l : Texto)
    (h : ∀ c ∈ l, isAlfanum c = true) : replaceEspacosAux b l = l := by
  induction l generalizing b with
  | nil => rfl
  | cons c cs ih =>
    have hc := isAlfanum_not_ws (h c (List.mem_cons_self c cs))
    simp only [replaceEspacosAux, hc, Bool.false_eq_true, if_false]
    rw [ih false (fun x hx => h x (List.mem_cons_of_mem c hx))]

theorem toUpperCase_of_alfanum (l : Texto) (h : ∀ c ∈ l, isAlfanum c = true) :
    toUpperCase l = l := by
  induction l with
  | nil => rfl
  | cons c cs ih =>
    simp only [toUpperCase, upperChar_of_alfanum (h c (List.mem_cons_self c cs))]
    rw [ih (fun x hx => h x (List.mem_cons_of_mem c hx))]
    rfl

theorem split_of_no_space (l : Texto) (h : ∀ c ∈ l, c ≠ ' ') : split l = [l] := by
  induction l with
  | nil => rfl
  | cons c cs ih =>
    have hc := h c (List.mem_cons_self c cs)
    simp only [split, hc, if_false, ih (fun x hx => h x (List.mem_cons_of_mem c hx))]

theorem palavras_of_alfanum (l : Texto) (h : ∀ c ∈ l, isAlfanum c = true) :
    palavras l = [l] := by
  unfold palavras replaceEspacos
  rw [replaceEspacosAux_of_alfanum false l h, toUpperCase_of_alfanum l h]
  exact split_of_no_space l (fun c hc => isAlfanum_ne_space (h c hc))

theorem limpar_of_alfanum (l : Texto) (h : ∀ c ∈ l, isAlfanum c = true) : limpar l = l :=
  List.filter_eq_self.mpr h

theorem limpar_alfanum (w : Texto) : ∀ c ∈ limpar w, isAlfanum c = true := by
  intro c hc
  exact (List.mem_filter.mp hc).2

/-! ## The pattern -/

theorem placaRegexMercosul_iff (s : Texto) :
    placaRegexMercosul s = true ↔
      ∃ c0 c1 c2 c3 c4 c5 c6, s = [c0, c1, c2, c3, c4, c5, c6] ∧ isLetra c0 = true ∧
        isLetra c1 = true ∧ isLetra c2 = true ∧ isNumero c3 = true ∧ isLetra c4 = true ∧
        isNumero c5 = true ∧ isNumero c6 = true := by
  constructor
  · intro h
    match s, h with
    | [c0, c1, c2, c3, c4, c5, c6], h =>
      simp only [placaRegexMercosul, Bool.and_eq_true] at h
      exact ⟨c0, c1, c2, c3, c4, c5, c6, rfl, h.1.1.1.1.1.1, h.1.1.1.1.1.2, h.1.1.1.1.2,
        h.1.1.1.2, h.1.1.2, h.1.2, h.2⟩
  · rintro ⟨c0, c1, c2, c3, c4, c5, c6, rfl, h0, h1, h2, h3, h4, h5, h6⟩
    simp [placaRegexMercosul, h0, h1, h2, h3, h4, h5, h6]

theorem placaRegexMercosul_alfanum {s : Texto} (h : placaRegexMercosul s = true) :
    ∀ c ∈ s, isAlfanum c = true := by
  obtain ⟨c0, c1, c2, c3, c4, c5, c6, rfl, h0, h1, h2, h3, h4, h5, h6⟩ :=
    (placaRegexMercosul_iff s).mp h
  intro c hc
  simp only [List.mem_cons, List.mem_singleton, List.not_mem_nil, or_false] at hc
  rcases hc with rfl | rfl | rfl | rfl | rfl | rfl | rfl <;> simp [isAlfanum, *]

theorem placaRegexMercosul_length {s : Texto} (h : placaRegexMercosul s = true) :
    s.length = 7 := by
  obtain ⟨c0, c1, c2, c3, c4, c5, c6, rfl, -⟩ := (placaRegexMercosul_iff s).mp h
  rfl

/-! ## The candidate -/

theorem candidato_length {l c : Texto} (h : candidato l = some c) : c.length = 7 := by
  unfold candidato at h
  split at h
  · cases h; assumption
  · split at h
    · cases h
      simp only [sliceUltimos7, List.length_drop]
      omega
    · cases h

theorem candidato_subset {l c : Texto} (h : candidato l = some c) : ∀ ch ∈ c, ch ∈ l := by
  unfold candidato at h
  split at h
  · cases h; exact fun _ hc => hc
  · split at h
    · cases h
      exact fun _ hc => List.mem_of_mem_drop hc
    · cases h

theorem truthy_candidato (l : Texto) : truthy (candidato l) = (candidato l).isSome := by
  cases h : candidato l with
  | none => rfl
  | some c =>
    have := candidato_length h
    match c, this with
    | _ :: _, _ => rfl

/-! ## The loop -/

theorem extrairLoop_cons (w : Texto) (ws : List Texto) :
    extrairLoop (w :: ws) = (resultadoPalavra w).or (extrairLoop ws) := by
  rw [extrairLoop]
  unfold resultadoPalavra
  simp only [truthy_candidato]
  cases candidato (limpar w) with
  | none => simp
  | some c =>
    simp only [Option.isSome_some, if_true]
    by_cases h1 : placaRegexMercosul c = true
    · simp [h1]
    · by_cases h2 : placaRegexMercosul (corrigir c) = true
      · simp [h1, h2]
      · simp [h1, h2]

theorem extrairLoop_eq_findSome (ws : List Texto) :
    extrairLoop ws = ws.findSome? resultadoPalavra := by
  induction ws with
  | nil => rfl
  | cons w ws ih =>
    rw [extrairLoop_cons, ih, List.findSome?_cons]
    cases resultadoPalavra w <;> rfl

theorem resultadoPalavra_padrao {w p : Texto} (h : resultadoPalavra w = some p) :
    placaRegexMercosul p = true := by
  unfold resultadoPalavra at h
  split at h
  · cases h
  · split at h
    · cases h; assumption
    · split at h
      · cases h; assumption
      · cases h

theorem extrairPlaca_eq_some_iff (t p : Texto) :
    extrairPlaca t = some p ↔
      ∃ pre w pos, palavras t = pre ++ w :: pos ∧ resultadoPalavra w = some p ∧
        ∀ v ∈ pre, resultadoPalavra v = none := by
  unfold extrairPlaca
  rw [extrairLoop_eq_findSome]
  exact List.findSome?_eq_some_iff

theorem extrairPlaca_padrao_aux {t p : Texto} (h : extrairPlaca t = some p) :
    placaRegexMercosul p = true := by
  obtain ⟨_, w, _, -, hw, -⟩ := (extrairPlaca_eq_some_iff t p).mp h
  exact resultadoPalavra_padrao hw

theorem extrairPlaca_of_padrao {p : Texto} (h : placaRegexMercosul p = true) :
    palavras p = [p] ∧ candidato (limpar p) = some p ∧ extrairPlaca p = some p := by
  have hal := placaRegexMercosul_alfanum h
  have hp := palavras_of_alfanum p hal
  have hc : candidato (limpar p) = some p := by
    rw [limpar_of_alfanum p hal]
    simp [candidato, placaRegexMercosul_length h]
  refine ⟨hp, hc, ?_⟩
  unfold extrairPlaca
  rw [hp, extrairLoop_cons]
  simp [resultadoPalavra, hc, h]

/-! ## The correction pass -/

theorem set_of_getElem? {cs : List Char} {i : Nat} {ch : Char} (h : cs[i]? = some ch) :
    cs.set i ch = cs := by
  induction cs generalizing i with
  | nil => rfl
  | cons x xs ih =>
    cases i with
    | zero =>
      simp only [List.getElem?_cons_zero, Option.some.injEq] at h
      subst h
      rfl
    | succ j =>
      simp only [List.getElem?_cons_succ] at h
      simp only [List.set_cons_succ, ih h]

theorem corrigirParaLetra_eq (cs : List Char) (i : Nat) :
    corrigirParaLetra cs i =
      match cs[i]? with
      | some ch => cs.set i (letraCorrigida ch)
      | none => cs := by
  unfold corrigirParaLetra letraCorrigida
  cases h : cs[i]? with
  | none => rfl
  | some ch =>
    simp only
    by_cases hn : isNumero ch = true
    · simp only [hn, if_true]
      cases correcaoParaLetra ch with
      | none => simp only [Option.getD_none, set_of_getElem? h]
      | some l => simp only [Option.getD_some]
    · simp only [hn, Bool.false_eq_true, if_false, set_of_getElem? h]

theorem corrigirParaNumero_eq (cs : List Char) (i : Nat) :
    corrigirParaNumero cs i =
      match cs[i]? with
      | some ch => cs.set i (numeroCorrigido ch)
      | none => cs := by
  unfold corrigirParaNumero numeroCorrigido
  cases h : cs[i]? with
  | none => rfl
  | some ch =>
    simp only
    by_cases hn : isLetra ch = true
    · simp only [hn, if_true]
      cases correcaoParaNumero ch with
      | none => simp only [Option.getD_none, set_of_getElem? h]
      | some l => simp only [Option.getD_some]
    · simp only [hn, Bool.false_eq_true, if_false, set_of_getElem? h]

theorem corrigirParaLetra_length (cs : List Char) (i : Nat) :
    (corrigirParaLetra cs i).length = cs.length := by
  rw [corrigirParaLetra_eq]
  cases cs[i]? <;> simp

theorem corrigirParaNumero_length (cs : List Char) (i : Nat) :
    (corrigirParaNumero cs i).length = cs.length := by
  rw [corrigirParaNumero_eq]
  cases cs[i]? <;> simp

theorem corrigir_sete (a b c d e f g : Char) :
    corrigir [a, b, c, d, e, f, g] =
      [letraCorrigida a, letraCorrigida b, letraCorrigida c, numeroCorrigido d,
        letraCorrigida e, numeroCorrigido f, numeroCorrigido g] := by
  simp [corrigir, corrigirParaLetra_eq, corrigirParaNumero_eq]

theorem length_sete {l : Texto} (h : l.length = 7) :
    ∃ a b c d e f g, l = [a, b, c, d, e, f, g] := by
  match l, h with
  | [a, b, c, d, e, f, g], _ => exact ⟨a, b, c, d, e, f, g, rfl⟩

theorem letraCorrigida_spec (ch : Char) :
    letraCorrigida ch =
      if ch = '0' then 'O' else if ch = '1' then 'I' else if ch = '8' then 'B'
      else if ch = '5' then 'S' else if ch = '2' then 'Z' else ch := by
  by_cases h0 : ch = '0'
  · subst h0; decide
  by_cases h1 : ch = '1'
  · subst h1; decide
  by_cases h8 : ch = '8'
  · subst h8; decide
  by_cases h5 : ch = '5'
  · subst h5; decide
  by_cases h2 : ch = '2'
  · subst h2; decide
  simp [letraCorrigida, correcaoParaLetra, h0, h1, h8, h5, h2]

theorem numeroCorrigido_spec (ch : Char) :
    numeroCorrigido ch =
      if ch = 'O' then '0' else if ch = 'I' then '1' else if ch = 'B' then '8'
      else if ch = 'S' then '5' else if ch = 'Z' then '2' else ch := by
  by_cases h0 : ch = 'O'
  · subst h0; decide
  by_cases h1 : ch = 'I'
  · subst h1; decide
  by_cases h8 : ch = 'B'
  · subst h8; decide
  by_cases h5 : ch = 'S'
  · subst h5; decide
  by_cases h2 : ch = 'Z'
  · subst h2; decide
  simp [numeroCorrigido, correcaoParaNumero, h0, h1, h8, h5, h2]

theorem letraCorrigida_idem (ch : Char) :
    letraCorrigida (letraCorrigida ch) = letraCorrigida ch := by
  by_cases h0 : ch = '0'
  · subst h0; decide
  by_cases h1 : ch = '1'
  · subst h1; decide
  by_cases h8 : ch = '8'
  · subst h8; decide
  by_cases h5 : ch = '5'
  · subst h5; decide
  by_cases h2 : ch = '2'
  · subst h2; decide
  have : letraCorrigida ch = ch := by simp [letraCorrigida_spec, h0, h1, h8, h5, h2]
  rw [this, this]

theorem numeroCorrigido_idem (ch : Char) :
    numeroCorrigido (numeroCorrigido ch) = numeroCorrigido ch := by
  by_cases h0 : ch = 'O'
  · subst h0; decide
  by_cases h1 : ch = 'I'
  · subst h1; decide
  by_cases h8 : ch = 'B'
  · subst h8; decide
  by_cases h5 : ch = 'S'
  · subst h5; decide
  by_cases h2 : ch = 'Z'
  · subst h2; decide
  have : numeroCorrigido ch = ch := by simp [numeroCorrigido_spec, h0, h1, h8, h5, h2]
  rw [this, this]

theorem letraCorrigida_of_letra {ch : Char} (h : isLetra ch = true) : letraCorrigida ch = ch := by
  simp [letraCorrigida, letra_not_numero h]

theorem numeroCorrigido_of_numero {ch : Char} (h : isNumero ch = true) :
    numeroCorrigido ch = ch := by
  simp [numeroCorrigido, numero_not_letra h]

theorem corrigir_of_padrao {p : Texto} (h : placaRegexMercosul p = true) : corrigir p = p := by
  obtain ⟨c0, c1, c2, c3, c4, c5, c6, rfl, h0, h1, h2, h3, h4, h5, h6⟩ :=
    (placaRegexMercosul_iff p).mp h
  rw [corrigir_sete, letraCorrigida_of_letra h0, letraCorrigida_of_letra h1,
    letraCorrigida_of_letra h2, numeroCorrigido_of_numero h3, letraCorrigida_of_letra h4,
    numeroCorrigido_of_numero h5, numeroCorrigido_of_numero h6]

theorem corrigirChecado_sete (a b c d e f g : Char) :
    corrigirChecado [a, b, c, d, e, f, g] = some (corrigir [a, b, c, d, e, f, g]) := by
  simp [corrigirChecado, passoChecado, corrigir, corrigirParaLetra_length,
    corrigirParaNumero_length]

theorem resultadoPalavra_eq_none_iff (v : Texto) :
    resultadoPalavra v = none ↔
      ∀ c, candidato (limpar v) = some c →
        placaRegexMercosul c = false ∧ placaRegexMercosul (corrigir c) = false := by
  unfold resultadoPalavra
  cases candidato (limpar v) with
  | none => simp
  | some c =>
    by_cases h1 : placaRegexMercosul c = true
    · simp [h1]
    · by_cases h2 : placaRegexMercosul (corrigir c) = true
      · simp [h1, h2]
      · simp [h1, h2]

theorem resultadoPalavra_eq_some_iff (w p : Texto) :
    resultadoPalavra w = some p ↔
      ∃ c, candidato (limpar w) = some c ∧
        ((placaRegexMercosul c = true ∧ p = c) ∨
          (placaRegexMercosul c = false ∧ placaRegexMercosul (corrigir c) = true ∧
            p = corrigir c)) := by
  unfold resultadoPalavra
  cases candidato (limpar w) with
  | none => simp
  | some c =>
    by_cases h1 : placaRegexMercosul c = true
    · simp only [h1, if_true, Option.some.injEq]
      constructor
      · rintro rfl
        exact ⟨c, rfl, Or.inl ⟨h1, rfl⟩⟩
      · rintro ⟨d, rfl, (⟨_, rfl⟩ | ⟨hf, _⟩)⟩
        · rfl
        · simp [h1] at hf
    · by_cases h2 : placaRegexMercosul (corrigir c) = true
      · simp only [h1, h2, if_true, Bool.false_eq_true, if_false, Option.some.injEq]
        constructor
        · rintro rfl
          exact ⟨c, rfl, Or.inr ⟨by simpa using h1, h2, rfl⟩⟩
        · rintro ⟨d, rfl, (⟨ht, _⟩ | ⟨_, _, rfl⟩)⟩
          · exact absurd ht h1
          · rfl
      · simp [h1, h2]

theorem resultadoPalavra_of_padrao {p : Texto} (h : placaRegexMercosul p = true) :
    resultadoPalavra p = some p := by
  have hc : candidato (limpar p) = some p := (extrairPlaca_of_padrao h).2.1
  simp [resultadoPalavra, hc, h]

theorem resultadoPalavra_of_curta {w : Texto} (h : (limpar w).length < 7) :
    resultadoPalavra w = none := by
  have hc : candidato (limpar w) = none := by
    unfold candidato
    rw [if_neg (by omega), if_neg (by omega)]
  simp [resultadoPalavra, hc]

theorem extrairPlaca_eq_none_iff (t : Texto) :
    extrairPlaca t = none ↔ ∀ w ∈ palavras t, resultadoPalavra w = none := by
  unfold extrairPlaca
  rw [extrairLoop_eq_findSome, List.findSome?_eq_none_iff]

/-! ## Which characters the correction turns into the expected class -/

theorem isLetra_letraCorrigida (x : Char) :
    isLetra (letraCorrigida x) = true ↔
      isLetra x = true ∨ x = '0' ∨ x = '1' ∨ x = '8' ∨ x = '5' ∨ x = '2' := by
  by_cases h0 : x = '0'
  · subst h0; decide
  by_cases h1 : x = '1'
  · subst h1; decide
  by_cases h8 : x = '8'
  · subst h8; decide
  by_cases h5 : x = '5'
  · subst h5; decide
  by_cases h2 : x = '2'
  · subst h2; decide
  have : letraCorrigida x = x := by simp [letraCorrigida_spec, h0, h1, h8, h5, h2]
  simp [this, h0, h1, h8, h5, h2]

theorem isNumero_numeroCorrigido (x : Char) :
    isNumero (numeroCorrigido x) = true ↔
      isNumero x = true ∨ x = 'O' ∨ x = 'I' ∨ x = 'B' ∨ x = 'S' ∨ x = 'Z' := by
  by_cases h0 : x = 'O'
  · subst h0; decide
  by_cases h1 : x = 'I'
  · subst h1; decide
  by_cases h8 : x = 'B'
  · subst h8; decide
  by_cases h5 : x = 'S'
  · subst h5; decide
  by_cases h2 : x = 'Z'
  · subst h2; decide
  have : numeroCorrigido x = x := by simp [numeroCorrigido_spec, h0, h1, h8, h5, h2]
  simp [this, h0, h1, h8, h5, h2]

theorem placaRegexMercosul_corrigir_sete (a b c d e f g : Char) :
    placaRegexMercosul (corrigir [a, b, c, d, e, f, g]) = true ↔
      (isLetra a = true ∨ a = '0' ∨ a = '1' ∨ a = '8' ∨ a = '5' ∨ a = '2') ∧
      (isLetra b = true ∨ b = '0' ∨ b = '1' ∨ b = '8' ∨ b = '5' ∨ b = '2') ∧
      (isLetra c = true ∨ c = '0' ∨ c = '1' ∨ c = '8' ∨ c = '5' ∨ c = '2') ∧
      (isNumero d = true ∨ d = 'O' ∨ d = 'I' ∨ d = 'B' ∨ d = 'S' ∨ d = 'Z') ∧
      (isLetra e = true ∨ e = '0' ∨ e = '1' ∨ e = '8' ∨ e = '5' ∨ e = '2') ∧
      (isNumero f = true ∨ f = 'O' ∨ f = 'I' ∨ f = 'B' ∨ f = 'S' ∨ f = 'Z') ∧
      (isNumero g = true ∨ g = 'O' ∨ g = 'I' ∨ g = 'B' ∨ g = 'S' ∨ g = 'Z') := by
  rw [corrigir_sete]
  simp only [placaRegexMercosul, Bool.and_eq_true, isLetra_letraCorrigida,
    isNumero_numeroCorrigido, and_assoc]

theorem extrairLoopSoCorrigida_eq (ws : List Texto) :
    extrairLoopSoCorrigida ws = extrairLoop ws := by
  induction ws with
  | nil => rfl
  | cons w ws ih =>
    rw [extrairLoopSoCorrigida, extrairLoop, ih]
    simp only
    split
    · split
      · rename_i cand hc
        by_cases h1 : placaRegexMercosul cand = true
        · simp [h1, corrigir_of_padrao h1]
        · simp [h1]
      · rfl
    · rfl

/-! ## Upper-casing -/

set_option maxRecDepth 1000000 in
set_option maxHeartbeats 40000000 in
theorem especiais_ok : ∀ p ∈ upperEspeciais,
    (128 ≤ p.1 ∧ codigoBranco p.1 = false) ∧ p.2 ≠ [] ∧ ∀ u ∈ p.2, saidaOk u = true := by
  decide

set_option maxRecDepth 1000000 in
set_option maxHeartbeats 40000000 in
theorem intervalos_ok : ∀ e ∈ upperIntervalos, entradaOk e = true := by
  decide

set_option maxRecDepth 1000000 in
set_option maxHeartbeats 40000000 in
theorem intervalos_chaves :
    ∀ e ∈ upperIntervalos, ∀ p ∈ upperEspeciais, livreChave e p.1 = true := by
  decide

set_option maxRecDepth 1000000 in
set_option maxHeartbeats 40000000 in
theorem intervalos_livres : ∀ e ∈ upperIntervalos, ∀ e2 ∈ upperIntervalos, livre e e2 = true := by
  decide

theorem upperCode_ascii {n : Nat} (h : n < 128) :
    upperCode n = if 97 ≤ n ∧ n ≤ 122 then [n - 32] else [n] := by
  unfold upperCode
  rw [if_pos h]

theorem upperCode_eq_self {n : Nat} (h128 : 128 ≤ n) (hS : ∀ p ∈ upperEspeciais, p.1 ≠ n)
    (hI : ∀ e ∈ upperIntervalos, noIntervalo n e = false) : upperCode n = [n] := by
  have h1 : upperEspeciais.find? (fun p => p.1 == n) = none := by
    rw [List.find?_eq_none]
    intro p hp
    simpa using hS p hp
  have h2 : upperIntervalos.find? (noIntervalo n) = none := by
    rw [List.find?_eq_none]
    intro e he
    simp [hI e he]
  unfold upperCode
  rw [if_neg (by omega), h1]
  simp only
  rw [h2]

theorem upperCode_cases (n : Nat) :
    n < 128 ∨ (∃ p ∈ upperEspeciais, upperCode n = p.2) ∨
      (∃ e ∈ upperIntervalos, noIntervalo n e = true ∧ upperCode n = [e.2.2.2 + (n - e.1)]) ∨
      upperCode n = [n] := by
  by_cases h : n < 128
  · exact Or.inl h
  right
  unfold upperCode
  rw [if_neg h]
  cases h1 : upperEspeciais.find? (fun p => p.1 == n) with
  | some p => exact Or.inl ⟨p, List.mem_of_find?_eq_some h1, rfl⟩
  | none =>
    right
    cases h2 : upperIntervalos.find? (noIntervalo n) with
    | some e =>
      exact Or.inl ⟨e, List.mem_of_find?_eq_some h2, List.find?_some h2, rfl⟩
    | none => exact Or.inr rfl

theorem semBranco_spec {a b k : Nat} (h : semBranco a b = true) (h1 : a ≤ k) (h2 : k ≤ b) :
    codigoBranco k = false := by
  simp only [semBranco, foraDe, Bool.and_eq_true, decide_eq_true_eq] at h
  simp only [codigoBranco, decide_eq_false_iff_not]
  omega

theorem saida_intervalo {e : Nat × Nat × Nat × Nat} (he : e ∈ upperIntervalos) {n : Nat}
    (hn : noIntervalo n e = true) : saidaOk (e.2.2.2 + (n - e.1)) = true := by
  have hok := intervalos_ok e he
  have hch := intervalos_chaves e he
  have hlv := intervalos_livres e he
  obtain ⟨lo, hi, st, a⟩ := e
  simp only [noIntervalo, decide_eq_true_eq] at hn
  simp only [entradaOk, Bool.and_eq_true, decide_eq_true_eq] at hok
  obtain ⟨⟨⟨hst, hlohi, hlo, hasc, hval⟩, hws⟩, -⟩ := hok
  have hk1 : a ≤ a + (n - lo) := by omega
  have hk2 : a + (n - lo) ≤ a + (hi - lo) := by omega
  have hself : upperCode (a + (n - lo)) = [a + (n - lo)] := by
    by_cases h128 : a + (n - lo) < 128
    · rw [upperCode_ascii h128, if_neg (by omega)]
    · apply upperCode_eq_self (by omega)
      · intro p hp hpk
        have := hch p hp
        simp only [livreChave, decide_eq_true_eq] at this
        rcases this with h | h | ⟨h1 | h1, h2⟩
        · omega
        · omega
        · rw [h1] at hn; omega
        · omega
      · intro e2 he2
        have := hlv e2 he2
        obtain ⟨lo2, hi2, st2, a2⟩ := e2
        simp only [livre, decide_eq_true_eq] at this
        simp only [noIntervalo, decide_eq_false_iff_not]
        rintro ⟨g1, g2, g3⟩
        rcases this with h | h | ⟨h1 | h1, h2, h3⟩
        · omega
        · omega
        · rw [h1] at hn; rw [h2] at g3; omega
        · rw [h2] at g3; omega
  simp only [saidaOk, Bool.and_eq_true, decide_eq_true_eq, Bool.not_eq_true', beq_iff_eq]
  exact ⟨⟨by omega, semBranco_spec hws hk1 hk2⟩, hself⟩

theorem upperCode_saida {n : Nat} (hv : n < 0xD800 ∨ (0xDFFF < n ∧ n < 0x110000)) :
    ∀ k ∈ upperCode n, (k < 0xD800 ∨ (0xDFFF < k ∧ k < 0x110000)) ∧ upperCode k = [k] ∧
      (codigoBranco n = false → codigoBranco k = false) := by
  intro k hk
  rcases upperCode_cases n with h | ⟨p, hp, h⟩ | ⟨e, he, hn, h⟩ | h
  · rw [upperCode_ascii h] at hk
    by_cases haz : 97 ≤ n ∧ n ≤ 122
    · rw [if_pos haz, List.mem_singleton] at hk
      subst hk
      refine ⟨by omega, ?_, fun _ => ?_⟩
      · rw [upperCode_ascii (by omega), if_neg (by omega)]
      · simp only [codigoBranco, decide_eq_false_iff_not]
        omega
    · rw [if_neg haz, List.mem_singleton] at hk
      subst hk
      exact ⟨hv, by rw [upperCode_ascii h, if_neg haz], fun hw => hw⟩
  · rw [h] at hk
    have := (especiais_ok p hp).2.2 k hk
    simp only [saidaOk, Bool.and_eq_true, decide_eq_true_eq, Bool.not_eq_true',
      beq_iff_eq] at this
    exact ⟨this.1.1, this.2, fun _ => this.1.2⟩
  · rw [h, List.mem_singleton] at hk
    subst hk
    have := saida_intervalo he hn
    simp only [saidaOk, Bool.and_eq_true, decide_eq_true_eq, Bool.not_eq_true',
      beq_iff_eq] at this
    exact ⟨this.1.1, this.2, fun _ => this.1.2⟩
  · rw [h, List.mem_singleton] at hk
    subst hk
    exact ⟨hv, h, fun hw => hw⟩

theorem upperCode_ne_nil (n : Nat) : upperCode n ≠ [] := by
  rcases upperCode_cases n with h | ⟨p, hp, h⟩ | ⟨e, he, hn, h⟩ | h
  · rw [upperCode_ascii h]
    split <;> exact List.cons_ne_nil _ _
  · rw [h]; exact (especiais_ok p hp).2.1
  · rw [h]; exact List.cons_ne_nil _ _
  · rw [h]; exact List.cons_ne_nil _ _

theorem upperCode_of_branco {n : Nat} (hw : codigoBranco n = true) : upperCode n = [n] := by
  by_cases h : n < 128
  · rw [upperCode_ascii h, if_neg]
    simp only [codigoBranco, decide_eq_true_eq] at hw
    omega
  · apply upperCode_eq_self (by omega)
    · intro p hp hpn
      have := (especiais_ok p hp).1.2
      rw [hpn, hw] at this
      cases this
    · intro e he
      have hok := intervalos_ok e he
      obtain ⟨lo, hi, st, a⟩ := e
      simp only [entradaOk, Bool.and_eq_true] at hok
      simp only [noIntervalo, decide_eq_false_iff_not]
      rintro ⟨g1, g2, -⟩
      have := semBranco_spec hok.2 g1 g2
      rw [hw] at this
      cases this

theorem toNat_ofNat_valid {k : Nat} (h : k < 0xD800 ∨ (0xDFFF < k ∧ k < 0x110000)) :
    (Char.ofNat k).toNat = k := by
  have hv : k.isValidChar := h
  unfold Char.ofNat
  rw [dif_pos hv]
  rfl

theorem toNat_valid (c : Char) : c.toNat < 0xD800 ∨ (0xDFFF < c.toNat ∧ c.toNat < 0x110000) :=
  c.valid

theorem isWhiteSpace_eq (c : Char) : isWhiteSpace c = codigoBranco c.toNat := rfl

theorem upperChar_ofNat {k : Nat} (hv : k < 0xD800 ∨ (0xDFFF < k ∧ k < 0x110000))
    (hk : upperCode k = [k]) : upperChar (Char.ofNat k) = [Char.ofNat k] := by
  unfold upperChar
  rw [toNat_ofNat_valid hv, hk]
  rfl

theorem upperChar_fixo (ch : Char) : ∀ u ∈ upperChar ch, upperChar u = [u] := by
  intro u hu
  obtain ⟨k, hk, rfl⟩ := List.mem_map.mp hu
  have := upperCode_saida (toNat_valid ch) k hk
  exact upperChar_ofNat this.1 this.2.1

theorem upperChar_not_ws {ch : Char} (hc : isWhiteSpace ch = false) :
    ∀ u ∈ upperChar ch, isWhiteSpace u = false := by
  intro u hu
  obtain ⟨k, hk, rfl⟩ := List.mem_map.mp hu
  have := upperCode_saida (toNat_valid ch) k hk
  rw [isWhiteSpace_eq, toNat_ofNat_valid this.1]
  exact this.2.2 hc

theorem upperChar_ne_nil (ch : Char) : upperChar ch ≠ [] := by
  unfold upperChar
  intro h
  exact upperCode_ne_nil ch.toNat (List.map_eq_nil_iff.mp h)

theorem upperChar_of_ws {ch : Char} (hc : isWhiteSpace ch = true) : upperChar ch = [ch] := by
  unfold upperChar
  rw [upperCode_of_branco hc]
  simp only [List.map_cons, List.map_nil, Char.ofNat_toNat]

theorem upperChar_ascii {ch : Char} (h : ch.toNat < 128) :
    upperChar ch = [asciiMaiuscula ch] := by
  unfold upperChar asciiMaiuscula
  rw [upperCode_ascii h]
  by_cases haz : 97 ≤ ch.toNat ∧ ch.toNat ≤ 122
  · rw [if_pos haz, if_pos haz]
    rfl
  · rw [if_neg haz, if_neg haz]
    simp only [List.map_cons, List.map_nil, Char.ofNat_toNat]

theorem asciiMaiuscula_toNat (ch : Char) :
    (asciiMaiuscula ch).toNat =
      if 97 ≤ ch.toNat ∧ ch.toNat ≤ 122 then ch.toNat - 32 else ch.toNat := by
  unfold asciiMaiuscula
  by_cases haz : 97 ≤ ch.toNat ∧ ch.toNat ≤ 122
  · rw [if_pos haz, if_pos haz, toNat_ofNat_valid (by omega)]
  · rw [if_neg haz, if_neg haz]

theorem upperChar_asciiMaiuscula (ch : Char) :
    upperChar (asciiMaiuscula ch) = upperChar ch := by
  by_cases haz : 97 ≤ ch.toNat ∧ ch.toNat ≤ 122
  · have h1 : (asciiMaiuscula ch).toNat = ch.toNat - 32 := by
      rw [asciiMaiuscula_toNat, if_pos haz]
    have h2 : asciiMaiuscula (asciiMaiuscula ch) = asciiMaiuscula ch := by
      generalize asciiMaiuscula ch = x at h1
      unfold asciiMaiuscula
      rw [if_neg (by omega)]
    rw [upperChar_ascii (by omega), upperChar_ascii (by omega), h2]
  · unfold asciiMaiuscula
    rw [if_neg haz]

theorem isWhiteSpace_asciiMaiuscula (ch : Char) :
    isWhiteSpace (asciiMaiuscula ch) = isWhiteSpace ch := by
  rw [isWhiteSpace_eq, isWhiteSpace_eq, asciiMaiuscula_toNat]
  by_cases haz : 97 ≤ ch.toNat ∧ ch.toNat ≤ 122
  · rw [if_pos haz]
    have h1 : codigoBranco (ch.toNat - 32) = false := by
      simp only [codigoBranco, decide_eq_false_iff_not]
      omega
    have h2 : codigoBranco ch.toNat = false := by
      simp only [codigoBranco, decide_eq_false_iff_not]
      omega
    rw [h1, h2]
  · rw [if_neg haz]

theorem toUpperCase_append (x y : Texto) :
    toUpperCase (x ++ y) = toUpperCase x ++ toUpperCase y := by
  induction x with
  | nil => rfl
  | cons c cs ih =>
    show upperChar c ++ toUpperCase (cs ++ y) = upperChar c ++ toUpperCase cs ++ toUpperCase y
    rw [ih, List.append_assoc]

theorem toUpperCase_of_fixo (x : Texto) (h : ∀ u ∈ x, upperChar u = [u]) :
    toUpperCase x = x := by
  induction x with
  | nil => rfl
  | cons c cs ih =>
    simp only [toUpperCase, h c (List.mem_cons_self c cs)]
    rw [ih (fun u hu => h u (List.mem_cons_of_mem c hu))]
    rfl

theorem toUpperCase_idem (x : Texto) : toUpperCase (toUpperCase x) = toUpperCase x := by
  induction x with
  | nil => rfl
  | cons c cs ih =>
    simp only [toUpperCase, toUpperCase_append, ih]
    rw [toUpperCase_of_fixo _ (upperChar_fixo c)]

theorem toUpperCase_space_cons (x : Texto) : toUpperCase (' ' :: x) = ' ' :: toUpperCase x := by
  rw [toUpperCase, upperChar_of_ws (by decide)]
  rfl

/-! ## Splitting, and the loop on a concatenation -/

theorem split_ne_nil (x : Texto) : split x ≠ [] := by
  cases x with
  | nil => exact List.cons_ne_nil _ _
  | cons c cs =>
    rw [split]
    by_cases hc : c = ' '
    · rw [if_pos hc]; exact List.cons_ne_nil _ _
    · rw [if_neg hc]
      cases split cs <;> exact List.cons_ne_nil _ _

theorem split_space_cons (x : Texto) : split (' ' :: x) = [] :: split x := by
  rw [split, if_pos rfl]

theorem split_append_space (y z : Texto) : split (y ++ ' ' :: z) = split y ++ split z := by
  induction y with
  | nil => rw [List.nil_append, split_space_cons]; rfl
  | cons c cs ih =>
    by_cases hc : c = ' '
    · subst hc
      rw [List.cons_append, split_space_cons, split_space_cons, ih]
      rfl
    · have e1 : ∀ x : Texto, split (c :: x) =
          match split x with
          | [] => [[c]]
          | w :: ws => (c :: w) :: ws := fun x => by rw [split, if_neg hc]
      rw [List.cons_append, e1, e1, ih]
      cases h : split cs with
      | nil => exact absurd h (split_ne_nil cs)
      | cons w ws => rfl

theorem resultadoPalavra_nil : resultadoPalavra [] = none := by decide

theorem extrairLoop_append (l1 l2 : List Texto) :
    extrairLoop (l1 ++ l2) = (extrairLoop l1).or (extrairLoop l2) := by
  simp only [extrairLoop_eq_findSome, List.findSome?_append]

theorem extrairPlaca_eq_normalizado (t : Texto) :
    extrairPlaca t = extrairNormalizado (replaceEspacos t) := rfl

theorem extrairNormalizado_space_cons (x : Texto) :
    extrairNormalizado (' ' :: x) = extrairNormalizado x := by
  unfold extrairNormalizado
  rw [toUpperCase_space_cons, split_space_cons, extrairLoop_cons, resultadoPalavra_nil]
  rfl

theorem extrairNormalizado_append_space (x z : Texto) :
    extrairNormalizado (x ++ ' ' :: z) = (extrairNormalizado x).or (extrairNormalizado z) := by
  unfold extrairNormalizado
  rw [toUpperCase_append, toUpperCase_space_cons, split_append_space, extrairLoop_append]

theorem extrairNormalizado_append_single (x : Texto) :
    extrairNormalizado (x ++ [' ']) = extrairNormalizado x := by
  rw [extrairNormalizado_append_space]
  have : extrairNormalizado [] = none := by decide
  rw [this, Option.or_none]

/-! ## The whitespace scan on a concatenation -/

theorem replaceEspacosAux_append (s : Bool) (a x : Texto) :
    replaceEspacosAux s (a ++ x) =
      replaceEspacosAux s a ++ replaceEspacosAux (emBrancoApos s a) x := by
  induction a generalizing s with
  | nil => rfl
  | cons c cs ih =>
    by_cases hc : isWhiteSpace c = true
    · cases s <;> simp [replaceEspacosAux, emBrancoApos, hc, ih]
    · simp [replaceEspacosAux, emBrancoApos, hc, ih]

theorem replaceEspacosAux_space_cons (s : Bool) (x : Texto) :
    replaceEspacosAux s (' ' :: x) =
      if s then replaceEspacosAux true x else ' ' :: replaceEspacosAux true x := by
  have : isWhiteSpace ' ' = true := by decide
  rw [replaceEspacosAux, if_pos this]

theorem extrairNormalizado_replace_true (x : Texto) :
    extrairNormalizado (replaceEspacosAux true x) =
      extrairNormalizado (replaceEspacosAux false x) := by
  cases x with
  | nil => rfl
  | cons c cs =>
    by_cases hc : isWhiteSpace c = true
    · simp only [replaceEspacosAux, hc, if_true, Bool.false_eq_true, if_false]
      rw [extrairNormalizado_space_cons]
    · have hf : isWhiteSpace c = false := by simpa using hc
      simp only [replaceEspacosAux, hf, Bool.false_eq_true, if_false]

theorem replaceEspacosAux_run_true (r : Texto) (h : ∀ c ∈ r, isWhiteSpace c = true) :
    replaceEspacosAux true r = [] ∧ emBrancoApos true r = true := by
  induction r with
  | nil => exact ⟨rfl, rfl⟩
  | cons c cs ih =>
    have hc := h c (List.mem_cons_self c cs)
    have := ih (fun x hx => h x (List.mem_cons_of_mem c hx))
    simp [replaceEspacosAux, emBrancoApos, hc, this]

theorem replaceEspacosAux_run (s : Bool) (r : Texto) (h : ∀ c ∈ r, isWhiteSpace c = true)
    (hne : r ≠ []) :
    replaceEspacosAux s r = (if s then [] else [' ']) ∧ emBrancoApos s r = true := by
  cases r with
  | nil => exact absurd rfl hne
  | cons c cs =>
    have hc := h c (List.mem_cons_self c cs)
    have := replaceEspacosAux_run_true cs (fun x hx => h x (List.mem_cons_of_mem c hx))
    cases s <;> simp [replaceEspacosAux, emBrancoApos, hc, this]

theorem replaceEspacosAux_emBranco (s : Bool) (a : Texto) (h : emBrancoApos s a = true) :
    (replaceEspacosAux s a = [] ∧ s = true) ∨ ∃ y, replaceEspacosAux s a = y ++ [' '] := by
  induction a generalizing s with
  | nil => exact Or.inl ⟨rfl, h⟩
  | cons c cs ih =>
    rw [emBrancoApos] at h
    by_cases hc : isWhiteSpace c = true
    · rw [hc] at h
      rcases ih true h with ⟨h1, -⟩ | ⟨y, hy⟩
      · cases s
        · exact Or.inr ⟨[], by simp [replaceEspacosAux, hc, h1]⟩
        · exact Or.inl ⟨by simp [replaceEspacosAux, hc, h1], rfl⟩
      · cases s
        · exact Or.inr ⟨' ' :: y, by simp [replaceEspacosAux, hc, hy]⟩
        · exact Or.inr ⟨y, by simp [replaceEspacosAux, hc, hy]⟩
    · have hf : isWhiteSpace c = false := by simpa using hc
      rw [hf] at h
      rcases ih false h with ⟨-, h2⟩ | ⟨y, hy⟩
      · cases h2
      · exact Or.inr ⟨c :: y, by simp [replaceEspacosAux, hf, hy]⟩

theorem replaceEspacosAux_of_not_ws (s : Bool) (u : Texto)
    (h : ∀ c ∈ u, isWhiteSpace c = false) : replaceEspacosAux s u = u := by
  induction u generalizing s with
  | nil => rfl
  | cons c cs ih =>
    have hc := h c (List.mem_cons_self c cs)
    simp only [replaceEspacosAux, hc, Bool.false_eq_true, if_false]
    rw [ih false (fun x hx => h x (List.mem_cons_of_mem c hx))]

theorem emBrancoApos_of_not_ws (s : Bool) (u : Texto) (h : ∀ c ∈ u, isWhiteSpace c = false)
    (hne : u ≠ []) : emBrancoApos s u = false := by
  have hfalse : ∀ v : Texto, (∀ c ∈ v, isWhiteSpace c = false) → emBrancoApos false v = false := by
    intro v
    induction v with
    | nil => intro _; rfl
    | cons c cs ih =>
      intro hv
      rw [emBrancoApos, hv c (List.mem_cons_self c cs)]
      exact ih (fun x hx => hv x (List.mem_cons_of_mem c hx))
  cases u with
  | nil => exact absurd rfl hne
  | cons c cs =>
    rw [emBrancoApos, h c (List.mem_cons_self c cs)]
    exact hfalse cs (fun x hx => h x (List.mem_cons_of_mem c hx))

theorem replaceEspacosAux_toUpperCase (s : Bool) (x : Texto) :
    replaceEspacosAux s (toUpperCase x) = toUpperCase (replaceEspacosAux s x) := by
  induction x generalizing s with
  | nil => rfl
  | cons c cs ih =>
    by_cases hc : isWhiteSpace c = true
    · rw [toUpperCase, upperChar_of_ws hc, List.singleton_append]
      cases s
      · simp only [replaceEspacosAux, hc, if_true, Bool.false_eq_true, if_false]
        rw [toUpperCase_space_cons, ih]
      · simp only [replaceEspacosAux, hc, if_true]
        rw [ih]
    · have hf : isWhiteSpace c = false := by simpa using hc
      rw [toUpperCase, replaceEspacosAux_append,
        replaceEspacosAux_of_not_ws s _ (upperChar_not_ws hf),
        emBrancoApos_of_not_ws s _ (upperChar_not_ws hf) (upperChar_ne_nil c), ih]
      simp only [replaceEspacosAux, hf, Bool.false_eq_true, if_false, toUpperCase]

theorem palavras_of_fixo (l : Texto) (h1 : ∀ c ∈ l, isWhiteSpace c = false)
    (h2 : ∀ c ∈ l, upperChar c = [c]) : palavras l = [l] := by
  unfold palavras replaceEspacos
  rw [replaceEspacosAux_of_not_ws false l h1, toUpperCase_of_fixo l h2]
  refine split_of_no_space l (fun c hc => ?_)
  rintro rfl
  have := h1 ' ' hc
  revert this
  decide

theorem upperChar_of_pontuacao {c : Char} (h : isPontuacao c = true) : upperChar c = [c] := by
  simp only [isPontuacao, decide_eq_true_eq] at h
  unfold upperChar upperCode
  rw [if_pos (by omega), if_neg (by omega)]
  simp only [List.map_cons, List.map_nil, Char.ofNat_toNat]

theorem isPontuacao_not_ws {c : Char} (h : isPontuacao c = true) : isWhiteSpace c = false := by
  simp only [isPontuacao, decide_eq_true_eq] at h
  simp only [isWhiteSpace, decide_eq_false_iff_not]
  omega

theorem extrairPlaca_concat (a b : Texto) :
    extrairPlaca (a ++ ' ' :: b) = (extrairPlaca a).or (extrairPlaca b) := by
  simp only [extrairPlaca_eq_normalizado, replaceEspacos]
  rw [replaceEspacosAux_append, replaceEspacosAux_space_cons]
  cases hst : emBrancoApos false a with
  | false =>
    simp only [Bool.false_eq_true, if_false]
    rw [extrairNormalizado_append_space, extrairNormalizado_replace_true]
  | true =>
    simp only [if_true]
    rcases replaceEspacosAux_emBranco false a hst with ⟨-, h2⟩ | ⟨y, hy⟩
    · cases h2
    · rw [hy, extrairNormalizado_append_single, List.append_assoc, List.singleton_append,
        extrairNormalizado_append_space, extrairNormalizado_replace_true]

theorem extrairLoop_filter (l : List Texto) :
    extrairLoop (l.filter (fun w => !w.isEmpty)) = extrairLoop l := by
  induction l with
  | nil => rfl
  | cons w ws ih =>
    cases w with
    | nil =>
      rw [extrairLoop_cons, resultadoPalavra_nil]
      simpa using ih
    | cons c cs =>
      have : ((c :: cs) :: ws).filter (fun w => !w.isEmpty) =
          (c :: cs) :: ws.filter (fun w => !w.isEmpty) := by simp
      rw [this, extrairLoop_cons, extrairLoop_cons, ih]

/-! ## The case of ASCII letters, and punctuation -/

theorem toUpperCase_map_ascii (x : Texto) :
    toUpperCase (x.map asciiMaiuscula) = toUpperCase x := by
  induction x with
  | nil => rfl
  | cons c cs ih => simp only [List.map_cons, toUpperCase, upperChar_asciiMaiuscula, ih]

theorem replaceEspacosAux_map_ascii (s : Bool) (x : Texto) :
    replaceEspacosAux s (x.map asciiMaiuscula) =
      (replaceEspacosAux s x).map asciiMaiuscula := by
  induction x generalizing s with
  | nil => rfl
  | cons c cs ih =>
    have hsp : asciiMaiuscula ' ' = ' ' := by decide
    by_cases hc : isWhiteSpace c = true
    · cases s <;> simp [replaceEspacosAux, isWhiteSpace_asciiMaiuscula, hc, ih, hsp]
    · simp [replaceEspacosAux, isWhiteSpace_asciiMaiuscula, hc, ih]

theorem palavras_map_ascii (t : Texto) : palavras (t.map asciiMaiuscula) = palavras t := by
  unfold palavras replaceEspacos
  rw [replaceEspacosAux_map_ascii, toUpperCase_map_ascii]

theorem toUpperCase_ascii (x : Texto) (h : ∀ ch ∈ x, ch.toNat < 128) :
    toUpperCase x = x.map asciiMaiuscula := by
  induction x with
  | nil => rfl
  | cons c cs ih =>
    simp only [toUpperCase, upperChar_ascii (h c (List.mem_cons_self c cs)), List.map_cons]
    rw [ih (fun x hx => h x (List.mem_cons_of_mem c hx))]
    rfl

theorem isAlfanum_not_pontuacao {ch : Char} (h : isAlfanum ch = true) :
    isPontuacao ch = false := by
  simp only [isAlfanum, isLetra, isNumero, Bool.or_eq_true, decide_eq_true_eq] at h
  simp only [isPontuacao, decide_eq_false_iff_not]
  omega

theorem isPontuacao_not_alfanum {ch : Char} (h : isPontuacao ch = true) :
    isAlfanum ch = false := by
  cases hal : isAlfanum ch with
  | false => rfl
  | true =>
    rw [isAlfanum_not_pontuacao hal] at h
    cases h

theorem limpar_of_semPontuacao {P w : Texto} (hal : ∀ ch ∈ P, isAlfanum ch = true)
    (hins : semPontuacao w = P) :
    (∀ ch ∈ w, isAlfanum ch = true ∨ isPontuacao ch = true) ∧ limpar w = P := by
  have hw : ∀ ch ∈ w, isAlfanum ch = true ∨ isPontuacao ch = true := by
    intro ch hch
    by_cases hp : isPontuacao ch = true
    · exact Or.inr hp
    · left
      apply hal
      rw [← hins]
      exact List.mem_filter.mpr ⟨hch, by simpa using hp⟩
  refine ⟨hw, ?_⟩
  rw [← hins]
  unfold limpar semPontuacao
  apply List.filter_congr
  intro ch hch
  rcases hw ch hch with h | h
  · rw [h, isAlfanum_not_pontuacao h]
    rfl
  · rw [h, isPontuacao_not_alfanum h]
    rfl

/-! ## The stated properties -/

/-- C1. Pattern conformance: a plate returned by `extrairPlaca`, on either
return path, has exactly 7 characters, with a letter `A-Z` at positions 0, 1,
2 and 4 and a digit `0-9` at positions 3, 5 and 6. -/
theorem extrairPlaca_conforme (t p : Texto) (h : extrairPlaca t = some p) :
    p.length = 7 ∧
      ∀ i ch, p[i]? = some ch →
        ((i = 0 ∨ i = 1 ∨ i = 2 ∨ i = 4) → isLetra ch = true) ∧
        ((i = 3 ∨ i = 5 ∨ i = 6) → isNumero ch = true) := by
  obtain ⟨c0, c1, c2, c3, c4, c5, c6, rfl, h0, h1, h2, h3, h4, h5, h6⟩ :=
    (placaRegexMercosul_iff p).mp (extrairPlaca_padrao_aux h)
  refine ⟨rfl, ?_⟩
  intro i ch hi
  constructor
  · rintro (rfl | rfl | rfl | rfl) <;>
      simp only [List.getElem?_cons_succ, List.getElem?_cons_zero, Option.some.injEq] at hi <;>
      subst hi <;> assumption
  · rintro (rfl | rfl | rfl) <;>
      simp only [List.getElem?_cons_succ, List.getElem?_cons_zero, Option.some.injEq] at hi <;>
      subst hi <;> assumption

/-- Witness of C1 on the corrected return path: `"AB05D21"` yields
`"ABO5D21"`. -/
theorem extrairPlaca_conforme_witness :
    extrairPlaca "AB05D21".toList = some "ABO5D21".toList ∧
      ("ABO5D21".toList.length = 7 ∧
        ∀ i ch, "ABO5D21".toList[i]? = some ch →
          ((i = 0 ∨ i = 1 ∨ i = 2 ∨ i = 4) → isLetra ch = true) ∧
          ((i = 3 ∨ i = 5 ∨ i = 6) → isNumero ch = true)) :=
  ⟨by decide, extrairPlaca_conforme "AB05D21".toList "ABO5D21".toList (by decide)⟩

/-- C2. First success in document order: `extrairPlaca` returns `p` exactly
when some token yields `p` (its candidate matches directly and is `p`, or
matches after correction and the corrected candidate is `p`) and no earlier
token yields a plate; it returns `null` exactly when no token yields a
plate. -/
theorem extrairPlaca_primeiro (t : Texto) :
    (∀ p, extrairPlaca t = some p ↔
      ∃ pre w pos, palavras t = pre ++ w :: pos ∧
        (∀ v ∈ pre, ∀ c, candidato (limpar v) = some c →
          placaRegexMercosul c = false ∧ placaRegexMercosul (corrigir c) = false) ∧
        ∃ c, candidato (limpar w) = some c ∧
          ((placaRegexMercosul c = true ∧ p = c) ∨
            (placaRegexMercosul c = false ∧ placaRegexMercosul (corrigir c) = true ∧
              p = corrigir c))) ∧
    (extrairPlaca t = none ↔
      ∀ w ∈ palavras t, ∀ c, candidato (limpar w) = some c →
        placaRegexMercosul c = false ∧ placaRegexMercosul (corrigir c) = false) := by
  have hnone := resultadoPalavra_eq_none_iff
  have hsome := resultadoPalavra_eq_some_iff
  constructor
  · intro p
    rw [extrairPlaca_eq_some_iff]
    constructor
    · rintro ⟨pre, w, pos, hp, hw, hpre⟩
      exact ⟨pre, w, pos, hp, fun v hv => (hnone v).mp (hpre v hv), (hsome w p).mp hw⟩
    · rintro ⟨pre, w, pos, hp, hpre, hw⟩
      exact ⟨pre, w, pos, hp, (hsome w p).mpr hw, fun v hv => (hnone v).mpr (hpre v hv)⟩
  · rw [extrairPlaca_eq_none_iff]
    exact forall₂_congr (fun v _ => hnone v)

/-- C3. Idempotence of matching: a plate returned by `extrairPlaca` is, fed
back in, a single token that is its own candidate, matches the pattern
directly and is returned unchanged. -/
theorem extrairPlaca_idempotente (t P : Texto) (h : extrairPlaca t = some P) :
    palavras P = [P] ∧ candidato (limpar P) = some P ∧ placaRegexMercosul P = true ∧
      extrairPlaca P = some P := by
  have hP := extrairPlaca_padrao_aux h
  obtain ⟨h1, h2, h3⟩ := extrairPlaca_of_padrao hP
  exact ⟨h1, h2, hP, h3⟩

/-- Witness of C3: the plate found in `"MERCOSUL ABC1D23 BRASIL"`. -/
theorem extrairPlaca_idempotente_witness :
    extrairPlaca "MERCOSUL ABC1D23 BRASIL".toList = some "ABC1D23".toList ∧
      (palavras "ABC1D23".toList = ["ABC1D23".toList] ∧
        candidato (limpar "ABC1D23".toList) = some "ABC1D23".toList ∧
        placaRegexMercosul "ABC1D23".toList = true ∧
        extrairPlaca "ABC1D23".toList = some "ABC1D23".toList) :=
  ⟨by decide,
    extrairPlaca_idempotente "MERCOSUL ABC1D23 BRASIL".toList "ABC1D23".toList (by decide)⟩

/-- C4, as stated, fails: in `"AB05D21 ABC1D23 DEF4G56"` the tokens `ABC1D23`
and `DEF4G56` are two distinct strings matching the pattern, yet the result
is `ABO5D21`, the corrected form of the token before them. -/
theorem extrairPlaca_ordem_counterexample :
    ¬ ∀ (t P1 P2 : Texto) (pre meio pos : List Texto),
        palavras t = pre ++ P1 :: (meio ++ P2 :: pos) →
        placaRegexMercosul P1 = true → placaRegexMercosul P2 = true → P1 ≠ P2 →
        extrairPlaca t = some P1 := by
  intro h
  have := h "AB05D21 ABC1D23 DEF4G56".toList "ABC1D23".toList "DEF4G56".toList
    ["AB05D21".toList] [] [] (by decide) (by decide) (by decide) (by decide)
  revert this
  decide

/-- C4, amended. Scan order: when two distinct strings matching the pattern
are among the tokens and no token before the earlier of the two yields a
plate, directly or after correction, `extrairPlaca` returns the earlier of
the two. -/
theorem extrairPlaca_ordem (t P1 P2 : Texto) (pre meio pos : List Texto)
    (h : palavras t = pre ++ P1 :: (meio ++ P2 :: pos))
    (h1 : placaRegexMercosul P1 = true) (_h2 : placaRegexMercosul P2 = true) (hne : P1 ≠ P2)
    (hpre : ∀ v ∈ pre, resultadoPalavra v = none) :
    extrairPlaca t = some P1 ∧ extrairPlaca t ≠ some P2 := by
  have hres : extrairPlaca t = some P1 :=
    (extrairPlaca_eq_some_iff t P1).mpr
      ⟨pre, P1, meio ++ P2 :: pos, h, resultadoPalavra_of_padrao h1, hpre⟩
  refine ⟨hres, ?_⟩
  rw [hres]
  intro hc
  exact hne (Option.some.inj hc)

/-- Witness of C4 amended: `"ZZZ NOPE ABC1D23 DEF4G56"` returns `"ABC1D23"`,
not `"DEF4G56"`. -/
theorem extrairPlaca_ordem_witness :
    extrairPlaca "ZZZ NOPE ABC1D23 DEF4G56".toList = some "ABC1D23".toList ∧
      extrairPlaca "ZZZ NOPE ABC1D23 DEF4G56".toList ≠ some "DEF4G56".toList :=
  extrairPlaca_ordem "ZZZ NOPE ABC1D23 DEF4G56".toList "ABC1D23".toList "DEF4G56".toList
    ["ZZZ".toList, "NOPE".toList] [] [] (by decide) (by decide) (by decide) (by decide)
    (by decide)

/-- C5. Totality: for every string `extrairPlaca` returns `null` or a plate;
every candidate has exactly 7 characters, all in `[A-Z0-9]`, so positions
0..6 exist and the correction pass with checked reads never meets an index
out of range and gives the result of the pass. -/
theorem extrairPlaca_total (t : Texto) :
    (extrairPlaca t = none ∨ ∃ p, extrairPlaca t = some p) ∧
      ∀ w ∈ palavras t, ∀ cand, candidato (limpar w) = some cand →
        cand.length = 7 ∧ (∀ ch ∈ cand, isAlfanum ch = true) ∧
          (∀ i, i < 7 → ∃ ch, cand[i]? = some ch) ∧
          corrigirChecado cand = some (corrigir cand) := by
  constructor
  · cases extrairPlaca t with
    | none => exact Or.inl rfl
    | some p => exact Or.inr ⟨p, rfl⟩
  · intro w _ c hc
    have hlen := candidato_length hc
    refine ⟨hlen, fun ch hch => limpar_alfanum w ch (candidato_subset hc ch hch), ?_, ?_⟩
    · intro i hi
      exact ⟨c.get ⟨i, by omega⟩, List.getElem?_eq_getElem (by omega)⟩
    · obtain ⟨a, b, c', d, e, f, g, rfl⟩ := length_sete hlen
      exact corrigirChecado_sete a b c' d e f g

/-- Witness of C5 on a multi-line text with arbitrary symbols. -/
theorem extrairPlaca_total_witness :
    extrairPlaca "@@ x\n#AB-05.D21?\n".toList = some "ABO5D21".toList ∧
      candidato (limpar "#AB-05.D21?".toList) = some "AB05D21".toList ∧
      corrigirChecado "AB05D21".toList = some (corrigir "AB05D21".toList) :=
  ⟨by decide, by decide,
    ((extrairPlaca_total "@@ x\n#AB-05.D21?\n".toList).2 "#AB-05.D21?".toList (by decide)
      "AB05D21".toList (by decide)).2.2.2⟩

/-- C6. Candidate derivation: the candidate of a token `v` is its cleaned
form when that has exactly 7 characters, the last 7 characters of the cleaned
form when it is longer, and absent when it is shorter; hence a single-token
text whose cleaned form is longer than 7 and ends in a plate `P` returns
`P`. -/
theorem candidato_regra (v t w pre P : Texto) (ht : palavras t = [w])
    (hw : limpar w = pre ++ P) (hpre : pre ≠ []) (hP : placaRegexMercosul P = true) :
    ((limpar v).length = 7 → candidato (limpar v) = some (limpar v)) ∧
      (7 < (limpar v).length →
        ∃ a b, limpar v = a ++ b ∧ b.length = 7 ∧ candidato (limpar v) = some b) ∧
      ((limpar v).length < 7 → candidato (limpar v) = none) ∧
      candidato (limpar w) = some P ∧ extrairPlaca t = some P := by
  have hP7 := placaRegexMercosul_length hP
  have hprelen : 0 < pre.length := List.length_pos.mpr hpre
  have hcw : candidato (limpar w) = some P := by
    unfold candidato sliceUltimos7
    rw [hw, if_neg (by simp only [List.length_append]; omega),
      if_pos (by simp only [List.length_append]; omega)]
    have : (pre ++ P).length - 7 = pre.length := by simp only [List.length_append]; omega
    rw [this, List.drop_left]
  refine ⟨fun h => by simp [candidato, h], ?_, ?_, hcw, ?_⟩
  · intro h
    refine ⟨(limpar v).take ((limpar v).length - 7), (limpar v).drop ((limpar v).length - 7),
      (List.take_append_drop _ _).symm, by simp only [List.length_drop]; omega, ?_⟩
    unfold candidato sliceUltimos7
    rw [if_neg (by omega), if_pos h]
  · intro h
    unfold candidato
    rw [if_neg (by omega), if_neg (by omega)]
  · unfold extrairPlaca
    rw [ht, extrairLoop_cons]
    simp [resultadoPalavra, hcw, hP]

/-- Witness of C6: `"ZABC1D23"` returns `"ABC1D23"` (and so does
`"XYZABC1D23"`, through the theorem again). -/
theorem candidato_regra_witness :
    (((limpar "XYZABC1D23".toList).length = 7 →
        candidato (limpar "XYZABC1D23".toList) = some (limpar "XYZABC1D23".toList)) ∧
      (7 < (limpar "XYZABC1D23".toList).length →
        ∃ a b, limpar "XYZABC1D23".toList = a ++ b ∧ b.length = 7 ∧
          candidato (limpar "XYZABC1D23".toList) = some b) ∧
      ((limpar "XYZABC1D23".toList).length < 7 →
        candidato (limpar "XYZABC1D23".toList) = none) ∧
      candidato (limpar "ZABC1D23".toList) = some "ABC1D23".toList ∧
      extrairPlaca "ZABC1D23".toList = some "ABC1D23".toList) ∧
    extrairPlaca "XYZABC1D23".toList = some "ABC1D23".toList :=
  ⟨candidato_regra "XYZABC1D23".toList "ZABC1D23".toList "ZABC1D23".toList "Z".toList
      "ABC1D23".toList (by decide) (by decide) (by decide) (by decide),
    (candidato_regra [] "XYZABC1D23".toList "XYZABC1D23".toList "XYZ".toList
      "ABC1D23".toList (by decide) (by decide) (by decide) (by decide)).2.2.2.2⟩

/-- C7. Positional correction: in a 7-character candidate the corrected
character at position `i` is the value of the specification's rule
`corrigidoEm` at `i` and the character read there, so it depends on these two
alone; `"AB05D21"` is corrected to `"ABO5D21"`, which `extrairPlaca`
returns. -/
theorem corrigir_posicao (cand : Texto) (i : Nat) (ch : Char) (h7 : cand.length = 7)
    (hi : cand[i]? = some ch) :
    (corrigir cand).length = 7 ∧ (corrigir cand)[i]? = some (corrigidoEm i ch) ∧
      corrigir "AB05D21".toList = "ABO5D21".toList ∧
      extrairPlaca "AB05D21".toList = some "ABO5D21".toList := by
  obtain ⟨a, b, c, d, e, f, g, rfl⟩ := length_sete h7
  refine ⟨by rw [corrigir_sete]; rfl, ?_, by decide, by decide⟩
  rw [corrigir_sete]
  have hlt : i < 7 := by
    by_contra hge
    rw [List.getElem?_eq_none (by simpa using hge)] at hi
    cases hi
  have hL : ∀ x : Char, letraCorrigida x =
      if x = '0' then 'O' else if x = '1' then 'I' else if x = '8' then 'B'
      else if x = '5' then 'S' else if x = '2' then 'Z' else x := letraCorrigida_spec
  have hN : ∀ x : Char, numeroCorrigido x =
      if x = 'O' then '0' else if x = 'I' then '1' else if x = 'B' then '8'
      else if x = 'S' then '5' else if x = 'Z' then '2' else x := numeroCorrigido_spec
  interval_cases i <;>
    simp only [List.getElem?_cons_succ, List.getElem?_cons_zero, Option.some.injEq] at hi ⊢ <;>
    subst hi <;> simp [corrigidoEm, hL, hN]

/-- Witness of C7 at position 2 of `"AB05D21"`, where `0` becomes `O`. -/
theorem corrigir_posicao_witness :
    (corrigir "AB05D21".toList).length = 7 ∧
      (corrigir "AB05D21".toList)[2]? = some (corrigidoEm 2 '0') ∧
      corrigir "AB05D21".toList = "ABO5D21".toList ∧
      extrairPlaca "AB05D21".toList = some "ABO5D21".toList :=
  corrigir_posicao "AB05D21".toList 2 '0' (by decide) (by decide)

/-- C8. Correction independence: on a 7-character candidate over `[A-Z0-9]`
the correction pass applied twice gives what it gives applied once. -/
theorem corrigir_idempotente (cand : Texto) (h7 : cand.length = 7)
    (_hal : ∀ ch ∈ cand, isAlfanum ch = true) :
    corrigir (corrigir cand) = corrigir cand := by
  obtain ⟨a, b, c, d, e, f, g, rfl⟩ := length_sete h7
  rw [corrigir_sete, corrigir_sete]
  simp only [letraCorrigida_idem, numeroCorrigido_idem]

/-- Witness of C8 on `"0B2S8OZ"`, where all seven positions are corrected. -/
theorem corrigir_idempotente_witness :
    corrigir "0B2S8OZ".toList = "OBZ5B02".toList ∧
      corrigir (corrigir "0B2S8OZ".toList) = corrigir "0B2S8OZ".toList :=
  ⟨by decide, corrigir_idempotente "0B2S8OZ".toList (by decide) (by decide)⟩

/-- C9. Short tokens: when every token, upper-cased and stripped of the
characters outside `[A-Z0-9]`, has fewer than 7 characters, `extrairPlaca`
returns `null`. -/
theorem extrairPlaca_curtas (t : Texto) (h : ∀ w ∈ palavras t, (limpar w).length < 7) :
    extrairPlaca t = none :=
  (extrairPlaca_eq_none_iff t).mpr (fun w hw => resultadoPalavra_of_curta (h w hw))

/-- Witness of C9: `""`, `"AB12"` and `"12345 !!!! no plate here"` return
`null`. -/
theorem extrairPlaca_curtas_witness :
    extrairPlaca "".toList = none ∧ extrairPlaca "AB12".toList = none ∧
      extrairPlaca "12345 !!!! no plate here".toList = none :=
  ⟨extrairPlaca_curtas "".toList (by decide), extrairPlaca_curtas "AB12".toList (by decide),
    extrairPlaca_curtas "12345 !!!! no plate here".toList (by decide)⟩

/-- C10, as stated, fails: `"ABC-1D23"` holds no run of 7 consecutive
alphanumeric characters, yet line 44 removes the hyphen and the plate
`"ABC1D23"` is returned. -/
theorem extrairPlaca_sequencia_counterexample :
    ¬ ∀ t : Texto, temSequencia7 t = false → extrairPlaca t = none := by
  intro h
  have := h "ABC-1D23".toList (by decide)
  revert this
  decide

/-- C10, amended. When no token of the upper-cased text holds 7 or more
characters of `[A-Z0-9]` in all, consecutive or not, `extrairPlaca` returns
`null`. -/
theorem extrairPlaca_poucos_alfanum (t : Texto)
    (h : ∀ w ∈ palavras t, contaAlfanum w < 7) : extrairPlaca t = none := by
  rw [extrairPlaca_eq_none_iff]
  intro w hw
  apply resultadoPalavra_of_curta
  have := h w hw
  rwa [contaAlfanum, List.countP_eq_length_filter] at this

/-- Witness of C10 amended: `"AB-C1 D2.3"` has two tokens of 4 and 3
alphanumeric characters. -/
theorem extrairPlaca_poucos_alfanum_witness :
    temSequencia7 "AB-C1 D2.3".toList = false ∧ extrairPlaca "AB-C1 D2.3".toList = none :=
  ⟨by decide, extrairPlaca_poucos_alfanum "AB-C1 D2.3".toList (by decide)⟩

/-- C11. A 7-character candidate over `[A-Z0-9]` passes the direct or the
corrected test exactly when every position among 0, 1, 2, 4 holds a letter or
one of the digits `0 1 8 5 2` and every position among 3, 5, 6 holds a digit or
one of the letters `O I B S Z`; so a digit outside the table at a letter
position, or a letter outside the table at a digit position, fails both
tests. -/
theorem candidato_aceito_iff (cand : Texto) (h7 : cand.length = 7)
    (_hal : ∀ ch ∈ cand, isAlfanum ch = true) :
    ((placaRegexMercosul cand = true ∨ placaRegexMercosul (corrigir cand) = true) ↔
      ∀ i ch, cand[i]? = some ch →
        ((i = 0 ∨ i = 1 ∨ i = 2 ∨ i = 4) →
          isLetra ch = true ∨ ch = '0' ∨ ch = '1' ∨ ch = '8' ∨ ch = '5' ∨ ch = '2') ∧
        ((i = 3 ∨ i = 5 ∨ i = 6) →
          isNumero ch = true ∨ ch = 'O' ∨ ch = 'I' ∨ ch = 'B' ∨ ch = 'S' ∨ ch = 'Z')) ∧
    (∀ i ch, cand[i]? = some ch →
      ((i = 0 ∨ i = 1 ∨ i = 2 ∨ i = 4) ∧ isNumero ch = true ∧
          ch ≠ '0' ∧ ch ≠ '1' ∧ ch ≠ '8' ∧ ch ≠ '5' ∧ ch ≠ '2') ∨
        ((i = 3 ∨ i = 5 ∨ i = 6) ∧ isLetra ch = true ∧
          ch ≠ 'O' ∧ ch ≠ 'I' ∧ ch ≠ 'B' ∧ ch ≠ 'S' ∧ ch ≠ 'Z') →
      placaRegexMercosul cand = false ∧ placaRegexMercosul (corrigir cand) = false) := by
  obtain ⟨a, b, c, d, e, f, g, rfl⟩ := length_sete h7
  have hiff : (placaRegexMercosul [a, b, c, d, e, f, g] = true ∨
      placaRegexMercosul (corrigir [a, b, c, d, e, f, g]) = true) ↔
      ∀ i ch, [a, b, c, d, e, f, g][i]? = some ch →
        ((i = 0 ∨ i = 1 ∨ i = 2 ∨ i = 4) →
          isLetra ch = true ∨ ch = '0' ∨ ch = '1' ∨ ch = '8' ∨ ch = '5' ∨ ch = '2') ∧
        ((i = 3 ∨ i = 5 ∨ i = 6) →
          isNumero ch = true ∨ ch = 'O' ∨ ch = 'I' ∨ ch = 'B' ∨ ch = 'S' ∨ ch = 'Z') := by
    have hor : (placaRegexMercosul [a, b, c, d, e, f, g] = true ∨
        placaRegexMercosul (corrigir [a, b, c, d, e, f, g]) = true) ↔
        placaRegexMercosul (corrigir [a, b, c, d, e, f, g]) = true := by
      constructor
      · rintro (h | h)
        · rw [corrigir_of_padrao h]; exact h
        · exact h
      · exact Or.inr
    rw [hor, placaRegexMercosul_corrigir_sete]
    constructor
    · rintro ⟨ha, hb, hc, hd, he, hf, hg⟩ i ch hi
      have hlt : i < 7 := by
        by_contra hge
        rw [List.getElem?_eq_none (by simpa using hge)] at hi
        cases hi
      interval_cases i <;>
        simp only [List.getElem?_cons_succ, List.getElem?_cons_zero, Option.some.injEq] at hi <;>
        subst hi <;> simp [*]
    · intro h
      exact ⟨(h 0 a rfl).1 (by simp), (h 1 b rfl).1 (by simp), (h 2 c rfl).1 (by simp),
        (h 3 d rfl).2 (by simp), (h 4 e rfl).1 (by simp), (h 5 f rfl).2 (by simp),
        (h 6 g rfl).2 (by simp)⟩
  refine ⟨hiff, ?_⟩
  intro i ch hi hbad
  have hno : ¬ (placaRegexMercosul [a, b, c, d, e, f, g] = true ∨
      placaRegexMercosul (corrigir [a, b, c, d, e, f, g]) = true) := by
    rw [hiff]
    intro hall
    have := hall i ch hi
    rcases hbad with ⟨hpos, hn, n0, n1, n8, n5, n2⟩ | ⟨hpos, hl, n0, n1, n8, n5, n2⟩
    · have := this.1 hpos
      simp [numero_not_letra hn, n0, n1, n8, n5, n2] at this
    · have := this.2 hpos
      simp [letra_not_numero hl, n0, n1, n8, n5, n2] at this
  simpa [not_or] using hno

/-- Witness of C11: in `"AB45D21"` the digit `4` at position 2 has no letter in
the table, and both tests fail. -/
theorem candidato_aceito_iff_witness :
    placaRegexMercosul "AB45D21".toList = false ∧
      placaRegexMercosul (corrigir "AB45D21".toList) = false :=
  (candidato_aceito_iff "AB45D21".toList (by decide) (by decide)).2 2 '4' (by decide)
    (Or.inl (by decide))

/-- C12. The two correction tables are inverse to each other: the keys of
`correcaoParaLetra` are the digits `0 1 8 5 2`, the keys of
`correcaoParaNumero` are the letters `O I B S Z`, each table sends a key to a
key of the other that is sent back to it, the values of the first are letters
`A-Z` and the values of the second are digits `0-9`. -/
theorem correcoes_inversas :
    (∀ d l, correcaoParaLetra d = some l →
      correcaoParaNumero l = some d ∧ isLetra l = true ∧ isNumero d = true) ∧
    (∀ l d, correcaoParaNumero l = some d →
      correcaoParaLetra d = some l ∧ isNumero d = true ∧ isLetra l = true) ∧
    (∀ d, (correcaoParaLetra d).isSome = true ↔
      d = '0' ∨ d = '1' ∨ d = '8' ∨ d = '5' ∨ d = '2') ∧
    (∀ l, (correcaoParaNumero l).isSome = true ↔
      l = 'O' ∨ l = 'I' ∨ l = 'B' ∨ l = 'S' ∨ l = 'Z') ∧
    [correcaoParaLetra '0', correcaoParaLetra '1', correcaoParaLetra '8',
      correcaoParaLetra '5', correcaoParaLetra '2'] =
      [some 'O', some 'I', some 'B', some 'S', some 'Z'] := by
  refine ⟨?_, ?_, ?_, ?_, by decide⟩
  · intro d l h
    unfold correcaoParaLetra at h
    split at h
    · cases h; subst_vars; decide
    split at h
    · cases h; subst_vars; decide
    split at h
    · cases h; subst_vars; decide
    split at h
    · cases h; subst_vars; decide
    split at h
    · cases h; subst_vars; decide
    · cases h
  · intro l d h
    unfold correcaoParaNumero at h
    split at h
    · cases h; subst_vars; decide
    split at h
    · cases h; subst_vars; decide
    split at h
    · cases h; subst_vars; decide
    split at h
    · cases h; subst_vars; decide
    split at h
    · cases h; subst_vars; decide
    · cases h
  · intro d
    unfold correcaoParaLetra
    by_cases h0 : d = '0' <;> by_cases h1 : d = '1' <;> by_cases h8 : d = '8' <;>
      by_cases h5 : d = '5' <;> by_cases h2 : d = '2' <;> simp [h0, h1, h8, h5, h2]
  · intro l
    unfold correcaoParaNumero
    by_cases h0 : l = 'O' <;> by_cases h1 : l = 'I' <;> by_cases h8 : l = 'B' <;>
      by_cases h5 : l = 'S' <;> by_cases h2 : l = 'Z' <;> simp [h0, h1, h8, h5, h2]

/-- C13. Letter case: `extrairPlaca` gives the same result on a text and on
its upper-cased form, so two texts with the same upper-cased form give the
same result; on ASCII text upper-casing is the map of `a-z` onto `A-Z`, and
two texts that differ only in the case of ASCII letters give the same result;
`"abc1d23"` returns `"ABC1D23"`. -/
theorem extrairPlaca_maiusculas (t : Texto) :
    extrairPlaca t = extrairPlaca (toUpperCase t) ∧
      (∀ t2, toUpperCase t2 = toUpperCase t → extrairPlaca t2 = extrairPlaca t) ∧
      ((∀ ch ∈ t, ch.toNat < 128) → toUpperCase t = t.map asciiMaiuscula) ∧
      (∀ t2, t2.map asciiMaiuscula = t.map asciiMaiuscula → extrairPlaca t2 = extrairPlaca t) ∧
      extrairPlaca "abc1d23".toList = some "ABC1D23".toList ∧
      extrairPlaca "AbC1d23".toList = some "ABC1D23".toList ∧
      toUpperCase "café ǆ ß".toList = "CAFÉ Ǆ SS".toList ∧
      extrairPlaca "é abc1d23".toList = extrairPlaca "É ABC1D23".toList := by
  have key : ∀ x : Texto, extrairPlaca (toUpperCase x) = extrairPlaca x := by
    intro x
    simp only [extrairPlaca, palavras, replaceEspacos]
    rw [replaceEspacosAux_toUpperCase, toUpperCase_idem]
  have keyAscii : ∀ x : Texto, extrairPlaca (x.map asciiMaiuscula) = extrairPlaca x := by
    intro x
    unfold extrairPlaca
    rw [palavras_map_ascii]
  refine ⟨(key t).symm, ?_, toUpperCase_ascii t, ?_, by decide, by decide, by decide,
    by decide⟩
  · intro t2 h
    rw [← key t2, h, key t]
  · intro t2 h
    rw [← keyAscii t2, h, keyAscii t]

/-- C14. Whitespace: replacing a non-empty run of whitespace by another, or
adding whitespace before or after the text, leaves the result unchanged; the
result is that of the loop over the non-empty tokens alone, and the empty
token has no candidate. -/
theorem extrairPlaca_espacos (a b r1 r2 : Texto)
    (h1 : ∀ ch ∈ r1, isWhiteSpace ch = true) (h2 : ∀ ch ∈ r2, isWhiteSpace ch = true)
    (hne1 : r1 ≠ []) (hne2 : r2 ≠ []) :
    extrairPlaca (a ++ r1 ++ b) = extrairPlaca (a ++ r2 ++ b) ∧
      extrairPlaca (r1 ++ a) = extrairPlaca a ∧
      extrairPlaca (a ++ r1) = extrairPlaca a ∧
      extrairPlaca a = extrairLoop ((palavras a).filter (fun w => !w.isEmpty)) ∧
      candidato (limpar []) = none := by
  refine ⟨?_, ?_, ?_, ?_, by decide⟩
  · have hrun : ∀ r : Texto, (∀ ch ∈ r, isWhiteSpace ch = true) → r ≠ [] →
        replaceEspacos (a ++ r ++ b) =
          replaceEspacosAux false a ++ (if emBrancoApos false a then [] else [' ']) ++
            replaceEspacosAux true b := by
      intro r hr hne
      unfold replaceEspacos
      rw [List.append_assoc, replaceEspacosAux_append, replaceEspacosAux_append,
        (replaceEspacosAux_run _ r hr hne).1, (replaceEspacosAux_run _ r hr hne).2,
        List.append_assoc]
    rw [extrairPlaca_eq_normalizado, extrairPlaca_eq_normalizado, hrun r1 h1 hne1,
      hrun r2 h2 hne2]
  · rw [extrairPlaca_eq_normalizado, extrairPlaca_eq_normalizado]
    unfold replaceEspacos
    rw [replaceEspacosAux_append, (replaceEspacosAux_run false r1 h1 hne1).1,
      (replaceEspacosAux_run false r1 h1 hne1).2]
    simp only [Bool.false_eq_true, if_false, List.singleton_append]
    rw [extrairNormalizado_space_cons, extrairNormalizado_replace_true]
  · rw [extrairPlaca_eq_normalizado, extrairPlaca_eq_normalizado]
    unfold replaceEspacos
    rw [replaceEspacosAux_append, (replaceEspacosAux_run _ r1 h1 hne1).1]
    cases emBrancoApos false a with
    | false =>
      simp only [Bool.false_eq_true, if_false]
      rw [extrairNormalizado_append_single]
    | true => simp only [if_true, List.append_nil]
  · rw [extrairLoop_filter]
    rfl

/-- Witness of C14: a tab and a newline for a space, and whitespace at both
ends. -/
theorem extrairPlaca_espacos_witness :
    extrairPlaca ("ZZZ".toList ++ "  ".toList ++ "ABC1D23".toList) =
        extrairPlaca ("ZZZ".toList ++ "\t\n".toList ++ "ABC1D23".toList) ∧
      extrairPlaca ("  ".toList ++ "ZZZ".toList) = extrairPlaca "ZZZ".toList ∧
      extrairPlaca ("ZZZ".toList ++ "  ".toList) = extrairPlaca "ZZZ".toList ∧
      extrairPlaca "ZZZ".toList =
        extrairLoop ((palavras "ZZZ".toList).filter (fun w => !w.isEmpty)) ∧
      candidato (limpar []) = none :=
  extrairPlaca_espacos "ZZZ".toList "ABC1D23".toList "  ".toList "\t\n".toList (by decide)
    (by decide) (by decide) (by decide)

/-- C15. Punctuation inside a token: when `w` is a plate `P` with ASCII
punctuation characters inserted at any positions, that is, when taking the
punctuation out of `w` leaves `P`, line 44 strips `w` to `P` and
`extrairPlaca` returns `P`. -/
theorem extrairPlaca_pontuacao (P w : Texto) (hP : placaRegexMercosul P = true)
    (hins : semPontuacao w = P) :
    limpar w = P ∧ extrairPlaca w = some P := by
  obtain ⟨hw, hlimpa⟩ := limpar_of_semPontuacao (placaRegexMercosul_alfanum hP) hins
  have hpal : palavras w = [w] := by
    apply palavras_of_fixo
    · intro ch hch
      rcases hw ch hch with h | h
      · exact isAlfanum_not_ws h
      · exact isPontuacao_not_ws h
    · intro ch hch
      rcases hw ch hch with h | h
      · exact upperChar_of_alfanum h
      · exact upperChar_of_pontuacao h
  have hc : candidato (limpar w) = some P := by
    rw [hlimpa]
    simp [candidato, placaRegexMercosul_length hP]
  refine ⟨hlimpa, ?_⟩
  unfold extrairPlaca
  rw [hpal, extrairLoop_cons]
  simp [resultadoPalavra, hc, hP]

/-- Witness of C15: `"ABC-1D23"` returns `"ABC1D23"`, and so does
`"_A.BC(1)D2!3"`. -/
theorem extrairPlaca_pontuacao_witness :
    (limpar "ABC-1D23".toList = "ABC1D23".toList ∧
        extrairPlaca "ABC-1D23".toList = some "ABC1D23".toList) ∧
      (limpar "_A.BC(1)D2!3".toList = "ABC1D23".toList ∧
        extrairPlaca "_A.BC(1)D2!3".toList = some "ABC1D23".toList) :=
  ⟨extrairPlaca_pontuacao "ABC1D23".toList "ABC-1D23".toList (by decide) (by decide),
    extrairPlaca_pontuacao "ABC1D23".toList "_A.BC(1)D2!3".toList (by decide) (by decide)⟩

/-- C16. The direct attempt is subsumed: a string matching the pattern is a
fixed point of the correction pass, and `extrairPlaca` returns on every text
what the variant without the direct attempt returns. -/
theorem direto_subsumido (t : Texto) :
    (∀ p, placaRegexMercosul p = true → corrigir p = p) ∧
      extrairPlaca t = extrairPlacaSoCorrigida t := by
  refine ⟨fun p hp => corrigir_of_padrao hp, ?_⟩
  unfold extrairPlaca extrairPlacaSoCorrigida
  rw [extrairLoopSoCorrigida_eq]

/-- C17. Concatenation: on `a`, a space and `b`, `extrairPlaca` returns the
plate of `a` when `a` yields one and the result of `b` otherwise. -/
theorem extrairPlaca_concatenacao (a b : Texto) :
    extrairPlaca (a ++ [' '] ++ b) =
      match extrairPlaca a with
      | some p => some p
      | none => extrairPlaca b := by
  rw [List.append_assoc, List.singleton_append, extrairPlaca_concat]
  cases extrairPlaca a <;> rfl

end ServidorOCR
